import Mathlib

/-!
# HydraTrack: persistence, expiration and cleanup of daily intake records

A shallow embedding of the persistence logic of `src/App.jsx`
(`getTodayKey`, `isDataExpired`, `loadInitialGoals`, `loadInitialIntake`,
`cleanupOldData`, the intake-saving and goals-saving effects, the hourly expiry
check and the goal handlers) and of the goal editor of
`src/components/DailyGoal.jsx`, and the properties of them that the specification
states.

Conventions of the embedding:

* `localStorage` is an association list of string keys and string values, passed
  explicitly; an operation that mutates it returns the new store.
* The wall clock (`new Date()`) is an explicit argument `now`, a time value in
  milliseconds since the epoch; one run of a function reads one instant.
* A JavaScript exception is the result `none`; `try`/`catch` is a `match` on it.
* Numbers are exact rationals.  The only arithmetic the code does on them is
  `(now - savedDate) / (1000 * 60 * 60) >= 24` on integer time values, where the
  rounded double quotient and the exact one compare alike with 24.
* Local time at the instants at which the program reads the clock is UTC plus the
  offset `tz` of the platform; a theorem about two clock readings takes the same
  offset at both (no daylight-saving transition between them).  The offset that
  `setDate` uses to convert a local time back, `tzAtLocal`, is a function of that
  local time, so the cut-off of the sweep is followed across a transition.  The
  calendar functions follow ECMA-262 (`Day`, `DayFromYear`, `YearFromTime`,
  `MonthFromTime`, `DateFromTime`, `MakeDay`, `MakeDate`, `TimeClip`,
  `LocalTime`, `UTC`).
* The built-ins the code calls but does not define (`JSON.parse`,
  `JSON.stringify`, `Date.parse`, the conversion of an object to a date, the
  storage quota, the local offset) are the fields of a `Platform`.  Theorems hold
  for every platform; `refPlatform` is one concrete platform on which the
  definitions can be evaluated.
-/

namespace HealthTracker

/-! ## JavaScript values -/

/-- The JavaScript values that can flow through the persistence code: the values
`JSON.parse` can produce, plus `undefined` (the result of reading an absent
property).  Numbers are rationals with the two infinities (`JSON.parse("1e999")`
is `Infinity`); every finite double is a rational, `-0` is identified with `0`. -/
inductive JSVal where
  | undefined
  | null
  | bool (b : Bool)
  | num (q : ℚ)
  | posInf
  | negInf
  | str (s : String)
  | arr (xs : List JSVal)
  | obj (ps : List (String × JSVal))

namespace JSVal

/-- The abstract operation ToBoolean: `undefined`, `null`, `false`, `0` and the
empty string are falsy, everything else is truthy. -/
def truthy : JSVal → Bool
  | undefined => false
  | null => false
  | bool b => b
  | num q => decide (q ≠ 0)
  | posInf => true
  | negInf => true
  | str s => decide (s ≠ "")
  | arr _ => true
  | obj _ => true

/-- The expression `a || b`. -/
def or (a b : JSVal) : JSVal := if a.truthy then a else b

/-- Own property of an object literal, `undefined` when absent. -/
def lookup (name : String) : List (String × JSVal) → JSVal
  | [] => undefined
  | (k, v) :: ps => if k = name then v else lookup name ps

/-- Property read `v.name` for the property names used by the program
(`timestamp`, `waterIntake`, `calorieIntake`, `waterGoal`, `calorieGoal`), none of
which is inherited from a built-in prototype.  Reading a property of `undefined`
or `null` throws a `TypeError` (`none`); a primitive or an array has no such
property. -/
def getProp (v : JSVal) (name : String) : Option JSVal :=
  match v with
  | undefined => none
  | null => none
  | obj ps => some (lookup name ps)
  | _ => some undefined

end JSVal

/-! ## Time values and the calendar (ECMA-262, "Time Values and Time Range") -/

def msPerDay : Int := 86400000

/-- Day number of a time value. -/
def Day (t : Int) : Int := t / msPerDay

def TimeWithinDay (t : Int) : Int := t % msPerDay

def DaysInYear (y : Int) : Int :=
  if y % 4 ≠ 0 then 365
  else if y % 100 ≠ 0 then 366
  else if y % 400 ≠ 0 then 365
  else 366

/-- Day number of the first day of year `y`. -/
def DayFromYear (y : Int) : Int :=
  365 * (y - 1970) + (y - 1969) / 4 - (y - 1901) / 100 + (y - 1601) / 400

/-- The year containing day number `d`: the largest `y` with
`DayFromYear y ≤ d`, found from the mean year length and corrected by one. -/
def yearOfDay (d : Int) : Int :=
  let y0 := 1970 + (400 * d) / 146097
  if DayFromYear (y0 + 1) ≤ d then y0 + 1
  else if DayFromYear y0 ≤ d then y0
  else y0 - 1

def YearFromTime (t : Int) : Int := yearOfDay (Day t)

def DayWithinYear (t : Int) : Int := Day t - DayFromYear (YearFromTime t)

/-- One in a leap year, zero otherwise. -/
def InLeapYear (t : Int) : Int := if DaysInYear (YearFromTime t) = 366 then 1 else 0

/-- Day within the year at which month `m` (0 to 11) starts; `leap` is 0 or 1. -/
def monthStart (m leap : Int) : Int :=
  if m ≤ 0 then 0
  else if m = 1 then 31
  else if m = 2 then 59 + leap
  else if m = 3 then 90 + leap
  else if m = 4 then 120 + leap
  else if m = 5 then 151 + leap
  else if m = 6 then 181 + leap
  else if m = 7 then 212 + leap
  else if m = 8 then 243 + leap
  else if m = 9 then 273 + leap
  else if m = 10 then 304 + leap
  else 334 + leap

/-- The month (0 for January to 11 for December) containing day `d` of a year;
`l` is 1 in a leap year and 0 otherwise. -/
def monthOfDay (d l : Int) : Int :=
  if d < 31 then 0
  else if d < 59 + l then 1
  else if d < 90 + l then 2
  else if d < 120 + l then 3
  else if d < 151 + l then 4
  else if d < 181 + l then 5
  else if d < 212 + l then 6
  else if d < 243 + l then 7
  else if d < 273 + l then 8
  else if d < 304 + l then 9
  else if d < 334 + l then 10
  else 11

/-- Month number, 0 for January to 11 for December. -/
def MonthFromTime (t : Int) : Int := monthOfDay (DayWithinYear t) (InLeapYear t)

/-- Day of the month, 1 to 31. -/
def DateFromTime (t : Int) : Int :=
  DayWithinYear t - monthStart (MonthFromTime t) (InLeapYear t) + 1

/-- The day number of the given year, month (0-based, any integer) and day of
month (any integer; days outside the month roll over). -/
def MakeDay (year month date : Int) : Int :=
  let ym := year + month / 12
  let mn := month % 12
  DayFromYear ym + monthStart mn (if DaysInYear ym = 366 then 1 else 0) + date - 1

def MakeDate (day time : Int) : Int := day * msPerDay + time

/-- Time values are limited to 100,000,000 days either side of the epoch; a value
outside is `NaN` (`none`). -/
def TimeClip (t : Int) : Option Int :=
  if -8640000000000000 ≤ t ∧ t ≤ 8640000000000000 then some t else none

/-- Local time from UTC; `tz` is the local time zone adjustment in milliseconds
that is in force at `t`. -/
def LocalTime (tz t : Int) : Int := t + tz

/-- UTC from the local time `t`; `tz` is the local time zone adjustment that is in
force at the local time `t`. -/
def UTC (tz t : Int) : Int := t - tz

/-- `Date.prototype.getFullYear` on a valid date. -/
def getFullYear (tz t : Int) : Int := YearFromTime (LocalTime tz t)

/-- `Date.prototype.getMonth` on a valid date. -/
def getMonth (tz t : Int) : Int := MonthFromTime (LocalTime tz t)

/-- `Date.prototype.getDate` on a valid date. -/
def getDate (tz t : Int) : Int := DateFromTime (LocalTime tz t)

/-- `Date.prototype.setDate(dt)` on a valid date; the result is the new time
value, `none` for an invalid date.  `tz` is the adjustment in force at `t`;
`tzAtLocal` gives the adjustment in force at a local time (the operation
LocalTZA with a local argument), with which the new local time is converted back,
so that the wall-clock time is kept across a daylight-saving transition. -/
def setDate (tz : Int) (tzAtLocal : Int → Int) (t dt : Int) : Option Int :=
  let lt := LocalTime tz t
  let newDate := MakeDate (MakeDay (YearFromTime lt) (MonthFromTime lt) dt) (TimeWithinDay lt)
  TimeClip (UTC (tzAtLocal newDate) newDate)

/-! ## Strings -/

/-- The decimal digit `d` (0 to 9) as a character. -/
def digitChar (d : Nat) : Char := Char.ofNat (48 + d)

/-- Decimal digits of `n`, most significant first; `fuel` bounds the number of
digits produced after the first. -/
def natDigits : Nat → Nat → List Char
  | 0, n => [digitChar (n % 10)]
  | fuel + 1, n => if n < 10 then [digitChar n] else natDigits fuel (n / 10) ++ [digitChar (n % 10)]

/-- Decimal representation of a natural number. -/
def natToString (n : Nat) : String := ⟨natDigits n n⟩

/-- The operation Number::toString on an integer (below `10^21` in magnitude):
`String(n)` and the template substitution of a number. -/
def intToString (i : Int) : String :=
  if i < 0 then "-" ++ natToString i.natAbs else natToString i.natAbs

/-- The method `String.prototype.padStart(n, c)` for a one-character filler. -/
def padStart (s : String) (n : Nat) (c : Char) : String :=
  ⟨List.replicate (n - s.length) c⟩ ++ s

/-- The method `String.prototype.startsWith`. -/
def startsWith (s p : String) : Bool := p.data.isPrefixOf s.data

/-- Decimal representation of `n`, zero-padded on the left to `width` digits. -/
def padNat (n width : Nat) : String := padStart (natToString n) width '0'

def HourFromTime (t : Int) : Int := (t / 3600000) % 24

def MinFromTime (t : Int) : Int := (t / 60000) % 60

def SecFromTime (t : Int) : Int := (t / 1000) % 60

def msFromTime (t : Int) : Int := t % 1000

/-- `Date.prototype.toISOString` on a valid date: `YYYY-MM-DDTHH:mm:ss.sssZ` in
UTC, the year written with a sign and six digits outside 0 to 9999. -/
def toISOString (t : Int) : String :=
  let y := YearFromTime t
  let ys :=
    if 0 ≤ y ∧ y ≤ 9999 then padNat y.natAbs 4
    else (if y < 0 then "-" else "+") ++ padNat y.natAbs 6
  ys ++ "-" ++ padNat (MonthFromTime t + 1).natAbs 2 ++ "-" ++ padNat (DateFromTime t).natAbs 2
    ++ "T" ++ padNat (HourFromTime t).natAbs 2 ++ ":" ++ padNat (MinFromTime t).natAbs 2
    ++ ":" ++ padNat (SecFromTime t).natAbs 2 ++ "." ++ padNat (msFromTime t).natAbs 3 ++ "Z"

/-! ## The storage area (`localStorage`) -/

/-- The storage area: keys and values in the order `key(i)` enumerates them. -/
abbrev Storage := List (String × String)

/-- `localStorage.getItem(k)`: the value stored under `k`, `none` for `null`. -/
def getItem : Storage → String → Option String
  | [], _ => none
  | (k', v) :: rest, k => if k' = k then some v else getItem rest k

/-- `localStorage.removeItem(k)`. -/
def removeItem (store : Storage) (k : String) : Storage :=
  store.filter (fun e => decide (e.1 ≠ k))

/-- The store after a successful `localStorage.setItem(k, v)`: the value is
replaced in place when the key exists and appended otherwise. -/
def setItem : Storage → String → String → Storage
  | [], k, v => [(k, v)]
  | (k', v') :: rest, k, v => if k' = k then (k, v) :: rest else (k', v') :: setItem rest k v

/-- `localStorage.key(i)`, `none` for `null`. -/
def key (store : Storage) (i : Nat) : Option String := (store.get? i).map Prod.fst

/-! ## The platform -/

/-- The built-ins whose behaviour the program takes from its host. -/
structure Platform where
  /-- Local time zone adjustment, in milliseconds, in force at the instants at
  which the program reads the clock. -/
  tz : Int
  /-- Local time zone adjustment in force at a local time value; it differs from
  `tz` on the other side of a daylight-saving transition. -/
  tzAtLocal : Int → Int
  /-- `JSON.parse`; `none` when it throws a `SyntaxError`. -/
  jsonParse : String → Option JSVal
  /-- `JSON.stringify` on an object. -/
  jsonStringify : JSVal → String
  /-- `Date.parse`; `none` for `NaN`. -/
  dateParse : String → Option Int
  /-- `new Date(v)` for an array or object `v` (which goes through ToPrimitive):
  `none` when the conversion throws, `some none` for an invalid date. -/
  compoundToDate : JSVal → Option (Option Int)
  /-- Whether `setItem(k, v)` on the given store succeeds; otherwise it throws
  `QuotaExceededError`. -/
  quotaAllows : Storage → String → String → Bool

/-- The time value of `new Date(v)`: `none` when the constructor throws, `some
none` for an invalid date (time value `NaN`). -/
def newDate (P : Platform) : JSVal → Option (Option Int)
  | .undefined => some none
  | .null => some (TimeClip 0)
  | .bool b => some (TimeClip (if b then 1 else 0))
  | .num q =>
    if (-8640000000000000 : ℚ) ≤ q ∧ q ≤ 8640000000000000 then some (some (q.num.tdiv q.den))
    else some none
  | .posInf => some none
  | .negInf => some none
  | .str s => some ((P.dateParse s).bind TimeClip)
  | v => P.compoundToDate v

/-- The comparison `a < b` of two dates; false when either is invalid. -/
def dateLt : Option Int → Option Int → Bool
  | some a, some b => decide (a < b)
  | _, _ => false

/-! ## The program (`App.jsx`) -/

def DEFAULT_WATER_GOAL : JSVal := .num 8

def DEFAULT_CALORIE_GOAL : JSVal := .num 2000

structure Goals where
  waterGoal : JSVal
  calorieGoal : JSVal

structure Intake where
  waterIntake : JSVal
  calorieIntake : JSVal

/-- The record `{waterIntake: 0, calorieIntake: 0}`. -/
def zeroIntake : Intake := { waterIntake := .num 0, calorieIntake := .num 0 }

/-- The record `{waterGoal: 8, calorieGoal: 2000}`. -/
def defaultGoals : Goals :=
  { waterGoal := DEFAULT_WATER_GOAL, calorieGoal := DEFAULT_CALORIE_GOAL }

/-- `getTodayKey`: the storage key of the local calendar day of `now`. -/
def getTodayKey (tz now : Int) : String :=
  let year := getFullYear tz now
  let month := padStart (intToString (getMonth tz now + 1)) 2 '0'
  let day := padStart (intToString (getDate tz now)) 2 '0'
  "health-tracker-" ++ intToString year ++ "-" ++ month ++ "-" ++ day

/-- `isDataExpired(savedTimestamp)` evaluated at the instant `now`; `none` when
it throws. -/
def isDataExpired (P : Platform) (now : Int) (savedTimestamp : JSVal) : Option Bool :=
  if !savedTimestamp.truthy then some true
  else
    match newDate P savedTimestamp with
    | none => none
    | some savedDate =>
      let hoursDiff : Option ℚ := savedDate.map fun s => ((now - s : Int) : ℚ) / (1000 * 60 * 60)
      match hoursDiff with
      | some h => some (decide (h ≥ 24))
      | none => some false

/-- `loadInitialGoals`. -/
def loadInitialGoals (P : Platform) (store : Storage) : Goals :=
  let attempt : Option (Option Goals) :=
    match getItem store "health-tracker-goals" with
    | none => some none
    | some savedGoals =>
      if savedGoals ≠ "" then
        match P.jsonParse savedGoals with
        | none => none
        | some goals =>
          match goals.getProp "waterGoal", goals.getProp "calorieGoal" with
          | some w, some c =>
            some (some { waterGoal := w.or DEFAULT_WATER_GOAL, calorieGoal := c.or DEFAULT_CALORIE_GOAL })
          | _, _ => none
      else some none
  match attempt with
  | some (some goals) => goals
  | _ => defaultGoals

/-- The `try` block of `loadInitialIntake`: `none` when it throws, otherwise the
record it returns (if it returns one) and the store it leaves. -/
def loadInitialIntakeTry (P : Platform) (now : Int) (store : Storage) :
    Option (Option Intake × Storage) :=
  let todayKey := getTodayKey P.tz now
  match getItem store todayKey with
  | none => some (none, store)
  | some savedData =>
    if savedData ≠ "" then
      match P.jsonParse savedData with
      | none => none
      | some data =>
        match data.getProp "timestamp" with
        | none => none
        | some timestamp =>
          if timestamp.truthy then
            match isDataExpired P now timestamp with
            | none => none
            | some false =>
              match data.getProp "waterIntake", data.getProp "calorieIntake" with
              | some w, some c =>
                some (some { waterIntake := w.or (.num 0), calorieIntake := c.or (.num 0) }, store)
              | _, _ => none
            | some true => some (none, removeItem store todayKey)
          else some (none, removeItem store todayKey)
    else some (none, store)

/-- `loadInitialIntake`, run at the instant `now`: the record returned and the
store afterwards. -/
def loadInitialIntake (P : Platform) (now : Int) (store : Storage) : Intake × Storage :=
  match loadInitialIntakeTry P now store with
  | some (some intake, store') => (intake, store')
  | some (none, store') => (zeroIntake, store')
  | none => (zeroIntake, store)

/-- The `try` block in the loop body of `cleanupOldData` for a key of the
namespace: `none` when it throws, otherwise whether the key is pushed. -/
def cleanupTry (P : Platform) (sevenDaysAgo : Option Int) (store : Storage) (k : String) :
    Option Bool :=
  match P.jsonParse ((getItem store k).getD "null") with
  | none => none
  | some data =>
    if data.truthy then
      match data.getProp "timestamp" with
      | none => none
      | some timestamp =>
        if timestamp.truthy then
          match newDate P timestamp with
          | none => none
          | some dataDate => some (dateLt dataDate sevenDaysAgo)
        else some false
    else some false

/-- The test `key && key.startsWith('health-tracker-') && key !== 'health-tracker-goals'`
of `cleanupOldData`. -/
def inRecordNamespace (k : String) : Bool :=
  decide (k ≠ "") && startsWith k "health-tracker-" && decide (k ≠ "health-tracker-goals")

/-- One iteration of the loop of `cleanupOldData`, at index `i`. -/
def cleanupStep (P : Platform) (sevenDaysAgo : Option Int) (store : Storage)
    (keysToRemove : List String) (i : Nat) : List String :=
  match key store i with
  | none => keysToRemove
  | some k =>
    if inRecordNamespace k then
      match cleanupTry P sevenDaysAgo store k with
      | some true => keysToRemove ++ [k]
      | some false => keysToRemove
      | none => keysToRemove ++ [k]
    else keysToRemove

/-- Whether a value is a finite, non-negative number. -/
def nonNegFinite : JSVal → Bool
  | .num q => decide (0 ≤ q)
  | _ => false

/-- Whether the loop of `cleanupOldData` pushes the key `k` when it meets it: the
key is in the namespace and the `try` block either asks for it or throws. -/
def cleanupMarks (P : Platform) (sevenDaysAgo : Option Int) (store : Storage) (k : String) :
    Bool :=
  inRecordNamespace k &&
    match cleanupTry P sevenDaysAgo store k with
    | some false => false
    | _ => true

/-- The date `sevenDaysAgo` of `cleanupOldData`: `new Date()` after
`setDate(getDate() - 7)`. -/
def sevenDaysAgo (P : Platform) (now : Int) : Option Int :=
  setDate P.tz P.tzAtLocal now (getDate P.tz now - 7)

/-- `cleanupOldData`, run at the instant `now`: the store afterwards. -/
def cleanupOldData (P : Platform) (now : Int) (store : Storage) : Storage :=
  let keysToRemove :=
    (List.range store.length).foldl (cleanupStep P (sevenDaysAgo P now) store) []
  keysToRemove.foldl removeItem store

/-- The object `{waterIntake, calorieIntake, timestamp, date: timestamp}` that the
saving effect writes. -/
def intakeData (waterIntake calorieIntake : JSVal) (timestamp : String) : JSVal :=
  .obj [("waterIntake", waterIntake), ("calorieIntake", calorieIntake),
    ("timestamp", .str timestamp), ("date", .str timestamp)]

/-- The effect that saves the intake: run at the instant `now` with the state
`waterIntake`, `calorieIntake`; the store afterwards. -/
def saveIntake (P : Platform) (now : Int) (waterIntake calorieIntake : JSVal)
    (store : Storage) : Storage :=
  let todayKey := getTodayKey P.tz now
  let timestamp := toISOString now
  let data := intakeData waterIntake calorieIntake timestamp
  if P.quotaAllows store todayKey (P.jsonStringify data) then
    setItem store todayKey (P.jsonStringify data)
  else store


/-- The callback of the hourly expiry check, run at the instant `now` with the
intake state `state`: the state and the store afterwards.  A reset sets both
counts to 0 and removes today's entry; an exception inside the `try` is caught and
changes nothing. -/
def expiryCheck (P : Platform) (now : Int) (state : Intake) (store : Storage) :
    Intake × Storage :=
  let todayKey := getTodayKey P.tz now
  match getItem store todayKey with
  | none => (state, store)
  | some savedData =>
    if savedData ≠ "" then
      match P.jsonParse savedData with
      | none => (state, store)
      | some data =>
        match data.getProp "timestamp" with
        | none => (state, store)
        | some timestamp =>
          match isDataExpired P now timestamp with
          | none => (state, store)
          | some true =>
            ({ waterIntake := .num 0, calorieIntake := .num 0 }, removeItem store todayKey)
          | some false => (state, store)
    else (state, store)

/-- `handleWaterGoalChange`: `setWaterGoal(newGoal)` on the goals state. -/
def handleWaterGoalChange (newGoal : JSVal) (goals : Goals) : Goals :=
  { goals with waterGoal := newGoal }

/-- `handleCalorieGoalChange`: `setCalorieGoal(newGoal)` on the goals state. -/
def handleCalorieGoalChange (newGoal : JSVal) (goals : Goals) : Goals :=
  { goals with calorieGoal := newGoal }

/-- The object `{waterGoal, calorieGoal}` that the goals-saving effect writes. -/
def goalsData (goals : Goals) : JSVal :=
  .obj [("waterGoal", goals.waterGoal), ("calorieGoal", goals.calorieGoal)]

/-- The effect that saves the goals, run with the goals state `goals`: the store
afterwards, `none` when `setItem` throws (the effect has no `try`). -/
def saveGoals (P : Platform) (goals : Goals) (store : Storage) : Option Storage :=
  if P.quotaAllows store "health-tracker-goals" (P.jsonStringify (goalsData goals)) then
    some (setItem store "health-tracker-goals" (P.jsonStringify (goalsData goals)))
  else none

/-! ## The goal editor (`components/DailyGoal.jsx`) -/

/-- The state of the `DailyGoal` component. -/
structure DailyGoal where
  isEditing : Bool
  tempWaterGoal : JSVal
  tempCalorieGoal : JSVal

/-- The state of `DailyGoal` when it mounts with the goals `goals` as props. -/
def DailyGoal.mount (goals : Goals) : DailyGoal :=
  { isEditing := false, tempWaterGoal := goals.waterGoal, tempCalorieGoal := goals.calorieGoal }

/-- The click on the edit button: `setIsEditing(true)`. -/
def DailyGoal.edit (d : DailyGoal) : DailyGoal := { d with isEditing := true }

/-- The `onChange` of the water input: `setTempWaterGoal(Number(e.target.value))`;
`value` is the number `Number(e.target.value)`, which is 0 for an emptied field
and otherwise the number typed (a number input holds no other text). -/
def DailyGoal.changeWaterGoal (value : JSVal) (d : DailyGoal) : DailyGoal :=
  { d with tempWaterGoal := value }

/-- The `onChange` of the calorie input:
`setTempCalorieGoal(Number(e.target.value))`. -/
def DailyGoal.changeCalorieGoal (value : JSVal) (d : DailyGoal) : DailyGoal :=
  { d with tempCalorieGoal := value }

/-- `handleSave`: calls `onWaterGoalChange(tempWaterGoal)` and
`onCalorieGoalChange(tempCalorieGoal)`, which `App` binds to
`handleWaterGoalChange` and `handleCalorieGoalChange`, then
`setIsEditing(false)`.  The result is the editor state and the goals state. -/
def DailyGoal.handleSave (d : DailyGoal) (goals : Goals) : DailyGoal × Goals :=
  ({ d with isEditing := false },
    handleCalorieGoalChange d.tempCalorieGoal (handleWaterGoalChange d.tempWaterGoal goals))

/-- `handleCancel`: the editor takes the goals of the props back. -/
def DailyGoal.handleCancel (_d : DailyGoal) (goals : Goals) : DailyGoal :=
  { isEditing := false, tempWaterGoal := goals.waterGoal, tempCalorieGoal := goals.calorieGoal }

/-- Whether a value is a positive integer. -/
def isPositiveInteger : JSVal → Bool
  | .num q => decide (0 < q) && decide (q.den = 1)
  | _ => false

/-! ## A reference platform

One concrete platform, on which the program can be run.  It agrees with
ECMAScript on the inputs used in this development: JSON texts built from objects,
arrays, strings with the simple escapes, booleans, `null` and integer literals;
timestamps in the format of `toISOString`.  `refJsonParse` rejects number
literals with a fraction or an exponent and `\u` escapes, and `refDateParse`
rejects every other date format, where a browser accepts more. -/

def isWs (c : Char) : Bool := c = ' ' || c = '\t' || c = '\n' || c = '\r'

def skipWs : List Char → List Char
  | [] => []
  | c :: cs => if isWs c then skipWs cs else c :: cs

def isDigitChar (c : Char) : Bool := decide (48 ≤ c.toNat ∧ c.toNat ≤ 57)

/-- Value of a run of decimal digits, continuing from `acc`. -/
def digitsVal : List Char → Nat → Nat
  | [], acc => acc
  | c :: cs, acc => digitsVal cs (10 * acc + (c.toNat - 48))

/-- Splits off the leading run of decimal digits. -/
def spanDigits : List Char → List Char × List Char
  | [] => ([], [])
  | c :: cs => if isDigitChar c then ((spanDigits cs).1.cons c, (spanDigits cs).2) else ([], c :: cs)

/-- A JSON integer literal at the head of the input. -/
def parseJsonNumber (cs : List Char) : Option (JSVal × List Char) :=
  let neg := cs.head? = some '-'
  let body := if neg then cs.tail else cs
  let ds := (spanDigits body).1
  let rest := (spanDigits body).2
  if ds = [] then none
  else if ds.head? = some '0' ∧ ds.length ≠ 1 then none
  else if rest.head? = some '.' ∨ rest.head? = some 'e' ∨ rest.head? = some 'E' then none
  else some (.num (if neg then -((digitsVal ds 0 : Nat) : Int) else ((digitsVal ds 0 : Nat) : Int)), rest)

/-- The rest of a JSON string after its opening quote; `acc` holds the characters
read so far, last first. -/
def parseJsonString : List Char → List Char → Option (String × List Char)
  | [], _ => none
  | c :: cs, acc =>
    if c = '"' then some (⟨acc.reverse⟩, cs)
    else if c = '\\' then
      match cs with
      | [] => none
      | e :: cs' =>
        if e = '"' then parseJsonString cs' ('"' :: acc)
        else if e = '\\' then parseJsonString cs' ('\\' :: acc)
        else if e = '/' then parseJsonString cs' ('/' :: acc)
        else if e = 'n' then parseJsonString cs' ('\n' :: acc)
        else if e = 'r' then parseJsonString cs' ('\r' :: acc)
        else if e = 't' then parseJsonString cs' ('\t' :: acc)
        else if e = 'b' then parseJsonString cs' (Char.ofNat 8 :: acc)
        else if e = 'f' then parseJsonString cs' (Char.ofNat 12 :: acc)
        else none
    else if c.toNat < 32 then none
    else parseJsonString cs (c :: acc)

/-- Sets a property of an object under construction: a repeated name keeps its
place and takes the later value. -/
def setProp (name : String) (v : JSVal) : List (String × JSVal) → List (String × JSVal)
  | [] => [(name, v)]
  | (k, w) :: ps => if k = name then (k, v) :: ps else (k, w) :: setProp name v ps

mutual

/-- A JSON value at the head of the input, after white space. -/
def parseJsonValue : Nat → List Char → Option (JSVal × List Char)
  | 0, _ => none
  | fuel + 1, cs =>
    match skipWs cs with
    | [] => none
    | c :: rest =>
      if c = '"' then (parseJsonString rest []).map fun r => (.str r.1, r.2)
      else if c = '[' then
        match skipWs rest with
        | [] => none
        | d :: rest' => if d = ']' then some (.arr [], rest') else parseJsonElems fuel (d :: rest') []
      else if c = '{' then
        match skipWs rest with
        | [] => none
        | d :: rest' => if d = '}' then some (.obj [], rest') else parseJsonMembers fuel (d :: rest') []
      else if ['n', 'u', 'l', 'l'].isPrefixOf (c :: rest) then some (.null, (c :: rest).drop 4)
      else if ['t', 'r', 'u', 'e'].isPrefixOf (c :: rest) then some (.bool true, (c :: rest).drop 4)
      else if ['f', 'a', 'l', 's', 'e'].isPrefixOf (c :: rest) then some (.bool false, (c :: rest).drop 5)
      else parseJsonNumber (c :: rest)

/-- The elements of a non-empty JSON array up to the closing bracket. -/
def parseJsonElems : Nat → List Char → List JSVal → Option (JSVal × List Char)
  | 0, _, _ => none
  | fuel + 1, cs, acc =>
    match parseJsonValue fuel cs with
    | none => none
    | some (v, rest) =>
      match skipWs rest with
      | [] => none
      | d :: rest' =>
        if d = ',' then parseJsonElems fuel rest' (acc ++ [v])
        else if d = ']' then some (.arr (acc ++ [v]), rest')
        else none

/-- The members of a non-empty JSON object up to the closing brace. -/
def parseJsonMembers : Nat → List Char → List (String × JSVal) → Option (JSVal × List Char)
  | 0, _, _ => none
  | fuel + 1, cs, acc =>
    match skipWs cs with
    | [] => none
    | q :: rest =>
      if q = '"' then
        match parseJsonString rest [] with
        | none => none
        | some (name, rest1) =>
          match skipWs rest1 with
          | [] => none
          | colon :: rest2 =>
            if colon = ':' then
              match parseJsonValue fuel rest2 with
              | none => none
              | some (v, rest3) =>
                match skipWs rest3 with
                | [] => none
                | d :: rest4 =>
                  if d = ',' then parseJsonMembers fuel rest4 (setProp name v acc)
                  else if d = '}' then some (.obj (setProp name v acc), rest4)
                  else none
            else none
      else none

end

/-- The reference `JSON.parse`. -/
def refJsonParse (s : String) : Option JSVal :=
  match parseJsonValue (s.length + 1) s.data with
  | none => none
  | some (v, rest) => if skipWs rest = [] then some v else none


def hexDigitChar (d : Nat) : Char := if d < 10 then Char.ofNat (48 + d) else Char.ofNat (87 + d)

/-- The JSON escape of one character of a string. -/
def escapeJsonChar (c : Char) : List Char :=
  if c = '"' then ['\\', '"']
  else if c = '\\' then ['\\', '\\']
  else if c = '\n' then ['\\', 'n']
  else if c = '\r' then ['\\', 'r']
  else if c = '\t' then ['\\', 't']
  else if c.toNat = 8 then ['\\', 'b']
  else if c.toNat = 12 then ['\\', 'f']
  else if c.toNat < 32 then ['\\', 'u', '0', '0', hexDigitChar (c.toNat / 16), hexDigitChar (c.toNat % 16)]
  else [c]

/-- The operation QuoteJSONString. -/
def quoteJsonString (s : String) : List Char :=
  ['"'] ++ s.data.flatMap escapeJsonChar ++ ['"']

mutual

/-- JSON text of a value; `none` where `JSON.stringify` gives `undefined`. -/
def stringifyJson : JSVal → Option (List Char)
  | .undefined => none
  | .null => some "null".data
  | .bool b => some (if b then "true".data else "false".data)
  | .num q => some (if q.den = 1 then (intToString q.num).data else "null".data)
  | .posInf => some "null".data
  | .negInf => some "null".data
  | .str s => some (quoteJsonString s)
  | .arr xs => some (['['] ++ stringifyJsonElems xs ++ [']'])
  | .obj ps => some (['{'] ++ stringifyJsonMembers ps true ++ ['}'])

/-- JSON text of the elements of an array, separated by commas. -/
def stringifyJsonElems : List JSVal → List Char
  | [] => []
  | x :: xs =>
    (stringifyJson x).getD "null".data ++ (if xs.isEmpty then [] else [',']) ++ stringifyJsonElems xs

/-- JSON text of the members of an object, separated by commas; a member whose
value has no JSON text is left out.  `first` tells that no member has been written
yet. -/
def stringifyJsonMembers : List (String × JSVal) → Bool → List Char
  | [], _ => []
  | (k, v) :: ps, first =>
    match stringifyJson v with
    | none => stringifyJsonMembers ps first
    | some t => (if first then [] else [',']) ++ quoteJsonString k ++ [':'] ++ t
        ++ stringifyJsonMembers ps false

end

/-- The reference `JSON.stringify`. -/
def refJsonStringify (v : JSVal) : String :=
  ⟨(stringifyJson v).getD "undefined".data⟩

/-- Reads exactly `n` decimal digits. -/
def readDigits (n : Nat) (cs : List Char) : Option (Nat × List Char) :=
  if n ≤ cs.length ∧ (cs.take n).all isDigitChar = true then some (digitsVal (cs.take n) 0, cs.drop n)
  else none

/-- Reads the character `c`. -/
def readChar (c : Char) : List Char → Option (List Char)
  | [] => none
  | d :: cs => if d = c then some cs else none

/-- Number of days of month `m` (0 to 11); `leap` is 0 or 1. -/
def daysInMonth (m leap : Int) : Int :=
  if m = 11 then 31 else monthStart (m + 1) leap - monthStart m leap

/-- The year of an ISO date-time: four digits, or a sign and six digits. -/
def readIsoYear (cs : List Char) : Option (Int × List Char) :=
  match cs with
  | [] => none
  | c :: rest =>
    if c = '+' then (readDigits 6 rest).map fun r => ((r.1 : Int), r.2)
    else if c = '-' then
      (readDigits 6 rest).bind fun r => if r.1 = 0 then none else some (-(r.1 : Int), r.2)
    else (readDigits 4 (c :: rest)).map fun r => ((r.1 : Int), r.2)

/-- Reads exactly `n` decimal digits followed by the character `sep`. -/
def readField (n : Nat) (sep : Char) (cs : List Char) : Option (Nat × List Char) :=
  (readDigits n cs).bind fun r => (readChar sep r.2).map fun rest => (r.1, rest)

/-- The date part `YYYY-MM-DDT` of an ISO date-time: the day number. -/
def readIsoDay (cs : List Char) : Option (Int × List Char) :=
  (readIsoYear cs).bind fun y =>
  (readChar '-' y.2).bind fun c1 =>
  (readField 2 '-' c1).bind fun mo =>
  (readField 2 'T' mo.2).bind fun d =>
  if decide (1 ≤ mo.1) && decide (mo.1 ≤ 12) && decide (1 ≤ d.1)
      && decide ((d.1 : Int) ≤ daysInMonth ((mo.1 : Int) - 1) (if DaysInYear y.1 = 366 then 1 else 0))
  then some (MakeDay y.1 ((mo.1 : Int) - 1) d.1, d.2)
  else none

/-- The time part `HH:mm:ss.sssZ` of an ISO date-time: the time within the day. -/
def readIsoTime (cs : List Char) : Option (Int × List Char) :=
  (readField 2 ':' cs).bind fun h =>
  (readField 2 ':' h.2).bind fun mi =>
  (readField 2 '.' mi.2).bind fun sec =>
  (readField 3 'Z' sec.2).bind fun ms =>
  if decide (h.1 ≤ 23) && decide (mi.1 ≤ 59) && decide (sec.1 ≤ 59) then
    some ((h.1 : Int) * 3600000 + (mi.1 : Int) * 60000 + (sec.1 : Int) * 1000 + (ms.1 : Int), ms.2)
  else none

/-- The reference `Date.parse`: the format `YYYY-MM-DDTHH:mm:ss.sssZ` only. -/
def refDateParse (s : String) : Option Int :=
  (readIsoDay s.data).bind fun day =>
  (readIsoTime day.2).bind fun time =>
  if time.2.isEmpty then some (MakeDate day.1 time.1) else none

/-- The reference `new Date(v)` for an array or object: an object with an own
`toString` property (which is not callable) makes ToPrimitive throw; an array of
one string converts as that string; anything else is taken to be an invalid
date. -/
def refCompoundToDate : JSVal → Option (Option Int)
  | .obj ps => if ps.any (fun p => decide (p.1 = "toString")) then none else some none
  | .arr [.str s] => some ((refDateParse s).bind TimeClip)
  | _ => some none

/-- The reference platform: UTC, storage without a quota. -/
def refPlatform : Platform where
  tz := 0
  tzAtLocal := fun _ => 0
  jsonParse := refJsonParse
  jsonStringify := refJsonStringify
  dateParse := refDateParse
  compoundToDate := refCompoundToDate
  quotaAllows := fun _ _ _ => true

/-- Whether a JSON string holds the character as it is, without an escape. -/
def plainJsonChar (c : Char) : Bool :=
  decide (32 ≤ c.toNat) && decide (c ≠ '"') && decide (c ≠ '\\')

/-- The key pattern `health-tracker-YYYY-MM-DD` of the per-day records, as the
specification words it: the prefix, then four digits, a dash, two digits, a dash
and two digits. -/
def isDayKey (k : String) : Bool :=
  let r := k.data.drop 15
  startsWith k "health-tracker-" && decide (r.length = 10)
    && (r.take 4).all isDigitChar && decide (r.get? 4 = some '-')
    && ((r.drop 5).take 2).all isDigitChar && decide (r.get? 7 = some '-')
    && (r.drop 8).all isDigitChar

/-- The reference platform in New York in the days after the daylight-saving
transition of 2024-03-10: the clock is read under the offset of -4 hours, and a
local time before 03:00 of 2024-03-10 is converted with the offset of -5 hours
that was in force then. -/
def newYorkPlatform : Platform :=
  { refPlatform with
    tz := -14400000
    tzAtLocal := fun lt => if lt < 1710039600000 then -18000000 else -14400000 }

/-- The instant 2024-03-14T12:00:00.000Z, used in the example of the sweep across
a daylight-saving transition. -/
def marchNow : Int := 1710417600000

/-- The instant 2024-02-29T12:34:56.789Z, used in the examples. -/
def sampleNow : Int := 1709210096789


/-! ## The calendar -/

theorem DayFromYear_succ (y : Int) : DayFromYear (y + 1) = DayFromYear y + DaysInYear y := by
  unfold DayFromYear DaysInYear
  split_ifs <;> omega

theorem yearOfDay_spec (d : Int) :
    DayFromYear (yearOfDay d) ≤ d ∧ d < DayFromYear (yearOfDay d + 1) := by
  unfold yearOfDay
  simp only
  split_ifs with h1 h2
  · refine ⟨h1, ?_⟩
    unfold DayFromYear at *
    omega
  · exact ⟨h2, by omega⟩
  · refine ⟨?_, ?_⟩
    · unfold DayFromYear at *
      omega
    · simp only [sub_add_cancel]; omega

theorem DaysInYear_le (y : Int) : DaysInYear y = 365 ∨ DaysInYear y = 366 := by
  unfold DaysInYear
  split_ifs <;> simp

theorem DayWithinYear_range (t : Int) :
    0 ≤ DayWithinYear t ∧ DayWithinYear t < 365 + InLeapYear t := by
  have h := yearOfDay_spec (Day t)
  rw [DayFromYear_succ] at h
  unfold DayWithinYear InLeapYear YearFromTime
  rcases DaysInYear_le (yearOfDay (Day t)) with h' | h' <;> rw [h'] at h <;> simp [h'] <;> omega

theorem InLeapYear_range (t : Int) : InLeapYear t = 0 ∨ InLeapYear t = 1 := by
  unfold InLeapYear
  split_ifs <;> simp

theorem monthOfDay_range (d l : Int) : 0 ≤ monthOfDay d l ∧ monthOfDay d l ≤ 11 := by
  unfold monthOfDay
  omega

theorem MonthFromTime_range (t : Int) : 0 ≤ MonthFromTime t ∧ MonthFromTime t ≤ 11 :=
  monthOfDay_range _ _

theorem monthOfDay_date (d l : Int) (hd : 0 ≤ d ∧ d < 365 + l) (hl : l = 0 ∨ l = 1) :
    1 ≤ d - monthStart (monthOfDay d l) l + 1 ∧ d - monthStart (monthOfDay d l) l + 1 ≤ 31 := by
  unfold monthOfDay monthStart
  omega

theorem DateFromTime_range (t : Int) : 1 ≤ DateFromTime t ∧ DateFromTime t ≤ 31 :=
  monthOfDay_date _ _ (DayWithinYear_range t) (InLeapYear_range t)

/-- The day number is determined by year, month and day of month. -/
theorem Day_eq (t : Int) :
    Day t = DayFromYear (YearFromTime t) + monthStart (MonthFromTime t) (InLeapYear t)
      + DateFromTime t - 1 := by
  unfold DateFromTime DayWithinYear
  omega

theorem MakeDay_of_time (t dt : Int) :
    MakeDay (YearFromTime t) (MonthFromTime t) dt = Day t - DateFromTime t + dt := by
  have hm := MonthFromTime_range t
  have h1 : MonthFromTime t / 12 = 0 := by omega
  have h2 : MonthFromTime t % 12 = MonthFromTime t := by omega
  have hd := Day_eq t
  unfold MakeDay
  simp only [h1, h2, add_zero]
  unfold InLeapYear at hd
  omega

theorem Day_add_TimeWithinDay (t : Int) : Day t * msPerDay + TimeWithinDay t = t := by
  unfold Day TimeWithinDay msPerDay
  omega

theorem MakeDate_minus_seven (lt : Int) :
    MakeDate (MakeDay (YearFromTime lt) (MonthFromTime lt) (DateFromTime lt - 7))
      (TimeWithinDay lt) = lt - 7 * msPerDay := by
  rw [MakeDay_of_time]
  have h := Day_add_TimeWithinDay lt
  unfold MakeDate msPerDay at *
  omega

/-- Moving the day of month back by seven keeps the local wall-clock time and
moves the local date back by seven days; the result is that local time, converted
with the adjustment in force at it. -/
theorem setDate_minus_seven (tz : Int) (tzAtLocal : Int → Int) (t : Int) :
    setDate tz tzAtLocal t (getDate tz t - 7)
      = TimeClip (UTC (tzAtLocal (LocalTime tz t - 7 * msPerDay))
          (LocalTime tz t - 7 * msPerDay)) := by
  unfold setDate getDate
  simp only [MakeDate_minus_seven]

/-- Two time values with the same year, month and day of month lie in the same
day. -/
theorem Day_eq_of_civil_eq (s t : Int) (hy : YearFromTime s = YearFromTime t)
    (hm : MonthFromTime s = MonthFromTime t) (hd : DateFromTime s = DateFromTime t) :
    Day s = Day t := by
  rw [Day_eq s, Day_eq t]
  unfold InLeapYear
  rw [hy, hm, hd]

theorem civil_eq_of_Day_eq (s t : Int) (h : Day s = Day t) :
    YearFromTime s = YearFromTime t ∧ MonthFromTime s = MonthFromTime t
      ∧ DateFromTime s = DateFromTime t := by
  have hy : YearFromTime s = YearFromTime t := by unfold YearFromTime; rw [h]
  have hw : DayWithinYear s = DayWithinYear t := by unfold DayWithinYear; rw [h, hy]
  have hl : InLeapYear s = InLeapYear t := by unfold InLeapYear; rw [hy]
  have hm : MonthFromTime s = MonthFromTime t := by unfold MonthFromTime; rw [hw, hl]
  refine ⟨hy, hm, ?_⟩
  unfold DateFromTime
  rw [hw, hl, hm]

/-- Two time values of the same day are less than 24 hours apart. -/
theorem lt_msPerDay_of_Day_eq (s t : Int) (h : Day s = Day t) : t - s < msPerDay := by
  unfold Day msPerDay at *
  omega

/-! ## Decimal strings and the day key -/

theorem digitChar_val : ∀ d, d < 10 → (digitChar d).toNat - 48 = d := by decide

theorem digitChar_isDigit : ∀ d, d < 10 → isDigitChar (digitChar d) = true := by decide

theorem digitsVal_append (xs ys : List Char) (a : Nat) :
    digitsVal (xs ++ ys) a = digitsVal ys (digitsVal xs a) := by
  induction xs generalizing a with
  | nil => rfl
  | cons c cs ih => simp [digitsVal, ih]

theorem digitsVal_natDigits : ∀ (fuel n : Nat), n ≤ fuel → digitsVal (natDigits fuel n) 0 = n
  | 0, n, h => by
    have h0 : n = 0 := by omega
    subst h0
    rfl
  | fuel + 1, n, h => by
    unfold natDigits
    split
    · next hlt => simp [digitsVal, digitChar_val n hlt]
    · next hge =>
      rw [digitsVal_append, digitsVal_natDigits fuel (n / 10) (by omega)]
      simp only [digitsVal]
      rw [digitChar_val (n % 10) (by omega)]
      omega

theorem natDigits_isDigit : ∀ (fuel n : Nat) (c : Char), c ∈ natDigits fuel n → isDigitChar c = true
  | 0, n, c, h => by
    simp only [natDigits, List.mem_singleton] at h
    subst h
    exact digitChar_isDigit _ (by omega)
  | fuel + 1, n, c, h => by
    unfold natDigits at h
    split at h
    · next hlt =>
      simp only [List.mem_singleton] at h
      subst h
      exact digitChar_isDigit _ hlt
    · simp only [List.mem_append, List.mem_singleton] at h
      rcases h with h | h
      · exact natDigits_isDigit fuel _ c h
      · subst h
        exact digitChar_isDigit _ (by omega)

theorem natToString_inj (a b : Nat) (h : natToString a = natToString b) : a = b := by
  have ha := digitsVal_natDigits a a le_rfl
  have hb := digitsVal_natDigits b b le_rfl
  have hd : natDigits a a = natDigits b b := congrArg String.data h
  rw [hd] at ha
  omega

theorem intToString_inj (a b : Int) (h : intToString a = intToString b) : a = b := by
  have hminus : ∀ (n : Nat) (s : String), "-" ++ s ≠ natToString n := by
    intro n s hs
    have hmem : '-' ∈ (natToString n).data := by
      rw [← hs]
      simp
    have := natDigits_isDigit n n '-' hmem
    revert this
    decide
  unfold intToString at h
  split_ifs at h with ha hb hb
  · have hs : natToString a.natAbs = natToString b.natAbs := by
      have := congrArg String.data h
      simp only [String.data_append, List.append_cancel_left_eq] at this
      exact String.ext this
    have := natToString_inj _ _ hs
    omega
  · exact absurd h (hminus _ _)
  · exact absurd h.symm (hminus _ _)
  · have := natToString_inj _ _ h
    omega

theorem pad2_spec : ∀ k, k < 100 →
    (padStart (natToString k) 2 '0').data.length = 2
      ∧ digitsVal (padStart (natToString k) 2 '0').data 0 = k := by
  decide

/-- The two-digit field written for a number from 0 to 99 determines the number. -/
theorem pad2_int (i : Int) (h0 : 0 ≤ i) (h1 : i < 100) :
    (padStart (intToString i) 2 '0').data.length = 2
      ∧ digitsVal (padStart (intToString i) 2 '0').data 0 = i.natAbs := by
  have hs : intToString i = natToString i.natAbs := by
    unfold intToString
    rw [if_neg (by omega)]
  rw [hs]
  exact pad2_spec _ (by omega)

/-- The day key determines the year, month and day of month it was made from. -/
theorem getTodayKey_inj (tz s t : Int) (h : getTodayKey tz s = getTodayKey tz t) :
    getFullYear tz s = getFullYear tz t ∧ getMonth tz s = getMonth tz t
      ∧ getDate tz s = getDate tz t := by
  have hms := MonthFromTime_range (LocalTime tz s)
  have hmt := MonthFromTime_range (LocalTime tz t)
  have hds := DateFromTime_range (LocalTime tz s)
  have hdt := DateFromTime_range (LocalTime tz t)
  have pms := pad2_int (getMonth tz s + 1) (by unfold getMonth; omega) (by unfold getMonth; omega)
  have pmt := pad2_int (getMonth tz t + 1) (by unfold getMonth; omega) (by unfold getMonth; omega)
  have pds := pad2_int (getDate tz s) (by unfold getDate; omega) (by unfold getDate; omega)
  have pdt := pad2_int (getDate tz t) (by unfold getDate; omega) (by unfold getDate; omega)
  have hdata := congrArg String.data h
  simp only [getTodayKey, String.data_append] at hdata
  obtain ⟨h1, hD⟩ := List.append_inj' hdata (by rw [pds.1, pdt.1])
  obtain ⟨h2, -⟩ := List.append_inj' h1 rfl
  obtain ⟨h3, hM⟩ := List.append_inj' h2 (by rw [pms.1, pmt.1])
  obtain ⟨h4, -⟩ := List.append_inj' h3 rfl
  have hY : intToString (getFullYear tz s) = intToString (getFullYear tz t) :=
    String.ext (List.append_cancel_left h4)
  refine ⟨intToString_inj _ _ hY, ?_, ?_⟩
  · have := pms.2
    rw [hM, pmt.2] at this
    unfold getMonth at *
    omega
  · have := pds.2
    rw [hD, pdt.2] at this
    unfold getDate at *
    omega

/-! ## The storage area -/

theorem getItem_setItem_self (store : Storage) (k v : String) :
    getItem (setItem store k v) k = some v := by
  induction store with
  | nil => simp [setItem, getItem]
  | cons e rest ih =>
    obtain ⟨k', v'⟩ := e
    by_cases h : k' = k
    · simp [setItem, getItem, h]
    · simp [setItem, getItem, h, ih]

/-- Filtering on the key keeps the value of every key that passes. -/
theorem getItem_filter_key (q : String → Bool) (store : Storage) (k : String) :
    getItem (store.filter fun e => q e.1) k = if q k then getItem store k else none := by
  induction store with
  | nil => simp [getItem]
  | cons e rest ih =>
    obtain ⟨k', v'⟩ := e
    by_cases hq : q k' = true
    · by_cases h : k' = k
      · subst h
        simp [List.filter_cons, hq, getItem]
      · simp [List.filter_cons, hq, getItem, h, ih]
    · by_cases h : k' = k
      · subst h
        simp only [Bool.not_eq_true] at hq
        simp [List.filter_cons, hq, getItem, ih]
      · simp only [Bool.not_eq_true] at hq
        simp [List.filter_cons, hq, getItem, h, ih]

theorem getItem_removeItem_self (store : Storage) (k : String) :
    getItem (removeItem store k) k = none := by
  unfold removeItem
  rw [getItem_filter_key (fun k' => decide (k' ≠ k))]
  simp

theorem getItem_mem (store : Storage) (k v : String) (h : getItem store k = some v) :
    (k, v) ∈ store := by
  induction store with
  | nil => simp [getItem] at h
  | cons e rest ih =>
    obtain ⟨k', v'⟩ := e
    by_cases hk : k' = k
    · simp only [getItem, hk, if_true, Option.some.injEq] at h
      simp [hk, h]
    · simp only [getItem, hk, if_false] at h
      exact List.mem_cons_of_mem _ (ih h)

theorem foldl_removeItem (keys : List String) (store : Storage) :
    keys.foldl removeItem store = store.filter fun e => decide (e.1 ∉ keys) := by
  induction keys generalizing store with
  | nil => simp
  | cons k ks ih =>
    rw [List.foldl_cons, ih, removeItem, List.filter_filter]
    congr 1
    funext e
    by_cases h1 : e.1 = k <;> by_cases h2 : e.1 ∈ ks <;> simp [h1, h2]

/-- A loop over the indices of a list that only reads the list at the index is a
fold over the list. -/
theorem foldl_range_get? {α β : Type} (f : β → Option α → β) (l : List α) (init : β) :
    (List.range l.length).foldl (fun acc i => f acc (l.get? i)) init
      = l.foldl (fun acc x => f acc (some x)) init := by
  induction l using List.reverseRecOn with
  | nil => simp
  | append_singleton l x ih =>
    rw [List.length_append, List.length_singleton, List.range_succ, List.foldl_append,
      List.foldl_append]
    have h1 : (List.range l.length).foldl (fun acc i => f acc ((l ++ [x]).get? i)) init
        = (List.range l.length).foldl (fun acc i => f acc (l.get? i)) init := by
      apply List.foldl_ext
      intro acc i hi
      rw [List.mem_range] at hi
      simp [List.getElem?_append_left hi]
    rw [h1, ih]
    simp

/-! ## The expiry check -/

theorem hoursDiff_ge (d : Int) : ((d : ℚ) / (1000 * 60 * 60) ≥ 24) ↔ 86400000 ≤ d := by
  rw [ge_iff_le, le_div_iff₀ (by norm_num)]
  have : (24 : ℚ) * (1000 * 60 * 60) = ((86400000 : Int) : ℚ) := by norm_num
  rw [this]
  exact Int.cast_le

/-- On a present timestamp that converts to the time value `ts`, the check
compares the elapsed milliseconds with 24 hours. -/
theorem isDataExpired_valid (P : Platform) (now ts : Int) (v : JSVal) (hv : v.truthy = true)
    (hd : newDate P v = some (some ts)) :
    isDataExpired P now v = some (decide (86400000 ≤ now - ts)) := by
  unfold isDataExpired
  simp only [hv, hd, Bool.not_true, Bool.false_eq_true, if_false, Option.map_some']
  congr 1
  exact decide_eq_decide.mpr (hoursDiff_ge (now - ts))

/-- On a present timestamp that converts to an invalid date, the check answers
false. -/
theorem isDataExpired_invalid (P : Platform) (now : Int) (v : JSVal) (hv : v.truthy = true)
    (hd : newDate P v = some none) : isDataExpired P now v = some false := by
  unfold isDataExpired
  simp [hv, hd]

theorem isDataExpired_falsy (P : Platform) (now : Int) (v : JSVal) (hv : v.truthy = false) :
    isDataExpired P now v = some true := by
  unfold isDataExpired
  simp [hv]

/-! ## Reading today's record -/

theorem loadInitialIntake_absent (P : Platform) (now : Int) (store : Storage)
    (h : getItem store (getTodayKey P.tz now) = none) :
    loadInitialIntake P now store = (zeroIntake, store) := by
  simp [loadInitialIntake, loadInitialIntakeTry, h]

theorem loadInitialIntake_unparseable (P : Platform) (now : Int) (store : Storage) (raw : String)
    (h : getItem store (getTodayKey P.tz now) = some raw) (hp : P.jsonParse raw = none) :
    loadInitialIntake P now store = (zeroIntake, store) := by
  by_cases he : raw = "" <;> simp [loadInitialIntake, loadInitialIntakeTry, h, hp, he]

theorem loadInitialIntake_no_timestamp (P : Platform) (now : Int) (store : Storage)
    (raw : String) (data ts : JSVal)
    (h : getItem store (getTodayKey P.tz now) = some raw) (he : raw ≠ "")
    (hp : P.jsonParse raw = some data) (hts : data.getProp "timestamp" = some ts)
    (hf : ts.truthy = false) :
    loadInitialIntake P now store = (zeroIntake, removeItem store (getTodayKey P.tz now)) := by
  simp [loadInitialIntake, loadInitialIntakeTry, h, hp, he, hts, hf]

theorem loadInitialIntake_expired (P : Platform) (now : Int) (store : Storage)
    (raw : String) (data ts : JSVal)
    (h : getItem store (getTodayKey P.tz now) = some raw) (he : raw ≠ "")
    (hp : P.jsonParse raw = some data) (hts : data.getProp "timestamp" = some ts)
    (ht : ts.truthy = true) (hx : isDataExpired P now ts = some true) :
    loadInitialIntake P now store = (zeroIntake, removeItem store (getTodayKey P.tz now)) := by
  simp [loadInitialIntake, loadInitialIntakeTry, h, hp, he, hts, ht, hx]

theorem loadInitialIntake_kept (P : Platform) (now : Int) (store : Storage)
    (raw : String) (data ts w c : JSVal)
    (h : getItem store (getTodayKey P.tz now) = some raw) (he : raw ≠ "")
    (hp : P.jsonParse raw = some data) (hts : data.getProp "timestamp" = some ts)
    (ht : ts.truthy = true) (hx : isDataExpired P now ts = some false)
    (hw : data.getProp "waterIntake" = some w) (hc : data.getProp "calorieIntake" = some c) :
    loadInitialIntake P now store
      = ({ waterIntake := w.or (.num 0), calorieIntake := c.or (.num 0) }, store) := by
  simp [loadInitialIntake, loadInitialIntakeTry, h, hp, he, hts, ht, hx, hw, hc]

/-- Whatever the store holds, each field of the record read is 0 or the truthy
value stored for that field. -/
theorem loadInitialIntake_fields (P : Platform) (now : Int) (store : Storage) :
    loadInitialIntake P now store = (zeroIntake, store)
    ∨ loadInitialIntake P now store = (zeroIntake, removeItem store (getTodayKey P.tz now))
    ∨ ∃ raw data w c, getItem store (getTodayKey P.tz now) = some raw
        ∧ P.jsonParse raw = some data
        ∧ data.getProp "waterIntake" = some w ∧ data.getProp "calorieIntake" = some c
        ∧ loadInitialIntake P now store
          = ({ waterIntake := w.or (.num 0), calorieIntake := c.or (.num 0) }, store) := by
  cases h : getItem store (getTodayKey P.tz now) with
  | none => exact Or.inl (loadInitialIntake_absent P now store h)
  | some raw =>
    cases hp : P.jsonParse raw with
    | none => exact Or.inl (loadInitialIntake_unparseable P now store raw h hp)
    | some data =>
      by_cases he : raw = ""
      · left
        simp [loadInitialIntake, loadInitialIntakeTry, h, he]
      cases hts : data.getProp "timestamp" with
      | none =>
        left
        simp [loadInitialIntake, loadInitialIntakeTry, h, hp, he, hts]
      | some ts =>
        cases ht : ts.truthy with
        | false => exact Or.inr (Or.inl (loadInitialIntake_no_timestamp P now store raw data ts h he hp hts ht))
        | true =>
          cases hx : isDataExpired P now ts with
          | none =>
            left
            simp [loadInitialIntake, loadInitialIntakeTry, h, hp, he, hts, ht, hx]
          | some b =>
            cases b with
            | true => exact Or.inr (Or.inl (loadInitialIntake_expired P now store raw data ts h he hp hts ht hx))
            | false =>
              cases hw : data.getProp "waterIntake" with
              | none =>
                left
                simp [loadInitialIntake, loadInitialIntakeTry, h, hp, he, hts, ht, hx, hw]
              | some w =>
                cases hc : data.getProp "calorieIntake" with
                | none =>
                  left
                  simp [loadInitialIntake, loadInitialIntakeTry, h, hp, he, hts, ht, hx, hw, hc]
                | some c =>
                  exact Or.inr (Or.inr ⟨raw, data, w, c, rfl, hp, hw, hc,
                    loadInitialIntake_kept P now store raw data ts w c h he hp hts ht hx hw hc⟩)

/-! ## The sweep -/

theorem cleanupStep_eq (P : Platform) (c : Option Int) (store : Storage) (acc : List String)
    (i : Nat) :
    cleanupStep P c store acc i
      = match store.get? i with
        | none => acc
        | some e => if cleanupMarks P c store e.1 then acc ++ [e.1] else acc := by
  unfold cleanupStep key cleanupMarks
  cases h : store.get? i with
  | none => simp
  | some e =>
    simp only [Option.map_some']
    cases hn : inRecordNamespace e.1 with
    | false => simp
    | true =>
      cases ht : cleanupTry P c store e.1 with
      | none => simp
      | some b => cases b <;> simp

theorem foldl_marks (q : String → Bool) (l : Storage) (init : List String) :
    l.foldl (fun acc e => if q e.1 then acc ++ [e.1] else acc) init
      = init ++ (l.map Prod.fst).filter q := by
  induction l generalizing init with
  | nil => simp
  | cons e rest ih =>
    rw [List.foldl_cons, ih]
    by_cases h : q e.1 = true
    · simp [h]
    · simp only [Bool.not_eq_true] at h
      simp [h]

/-- The keys the loop collects are the keys of the store that it marks. -/
theorem keysToRemove_eq (P : Platform) (c : Option Int) (store : Storage) :
    (List.range store.length).foldl (cleanupStep P c store) []
      = (store.map Prod.fst).filter (cleanupMarks P c store) := by
  have h := foldl_range_get?
    (fun (acc : List String) (o : Option (String × String)) =>
      match o with
      | none => acc
      | some e => if cleanupMarks P c store e.1 then acc ++ [e.1] else acc) store []
  have hstep : cleanupStep P c store = fun acc i =>
      match store.get? i with
      | none => acc
      | some e => if cleanupMarks P c store e.1 then acc ++ [e.1] else acc := by
    funext acc i
    exact cleanupStep_eq P c store acc i
  rw [hstep, h]
  simpa using foldl_marks (cleanupMarks P c store) store []

/-- The sweep keeps exactly the entries whose key it does not mark. -/
theorem cleanupOldData_eq_filter (P : Platform) (now : Int) (store : Storage) :
    cleanupOldData P now store
      = store.filter fun e =>
          !cleanupMarks P (sevenDaysAgo P now) store e.1 := by
  unfold cleanupOldData
  simp only
  rw [keysToRemove_eq, foldl_removeItem]
  apply List.filter_congr
  intro e he
  have hmem : e.1 ∈ store.map Prod.fst := List.mem_map_of_mem _ he
  cases hq : cleanupMarks P (sevenDaysAgo P now) store e.1 <;>
    simp [List.mem_filter, hq, hmem]

theorem getItem_cleanupOldData (P : Platform) (now : Int) (store : Storage) (k : String) :
    getItem (cleanupOldData P now store) k
      = if cleanupMarks P (sevenDaysAgo P now) store k then none
        else getItem store k := by
  rw [cleanupOldData_eq_filter,
    getItem_filter_key (fun k => !cleanupMarks P (sevenDaysAgo P now) store k)]
  cases cleanupMarks P (sevenDaysAgo P now) store k <;> simp

/-- Whether a key is marked depends on the store only through the value stored
under that key. -/
theorem cleanupMarks_congr (P : Platform) (c : Option Int) (s1 s2 : Storage) (k : String)
    (h : getItem s1 k = getItem s2 k) : cleanupMarks P c s1 k = cleanupMarks P c s2 k := by
  unfold cleanupMarks cleanupTry
  rw [h]

/-! ## The reference platform obeys the round-trip laws -/

theorem natDigits_length : ∀ (fuel n k : Nat), n < 10 ^ (k + 1) → (natDigits fuel n).length ≤ k + 1
  | 0, n, k, _ => by simp [natDigits]
  | fuel + 1, n, k, h => by
    unfold natDigits
    split
    · simp
    · next hge =>
      cases k with
      | zero => omega
      | succ k =>
        have hlt : n / 10 < 10 ^ (k + 1) := by
          rw [Nat.div_lt_iff_lt_mul (by norm_num)]
          rw [pow_succ] at h
          exact h
        have := natDigits_length fuel (n / 10) k hlt
        simp only [List.length_append, List.length_singleton]
        omega

theorem digitsVal_replicate_zero (k : Nat) (xs : List Char) :
    digitsVal (List.replicate k '0' ++ xs) 0 = digitsVal xs 0 := by
  induction k with
  | zero => rfl
  | succ k ih => simpa [List.replicate_succ, digitsVal] using ih

/-- A number below `10 ^ width` is written by `padNat` as exactly `width` digits
that denote it. -/
theorem padNat_spec (n k : Nat) (h : n < 10 ^ (k + 1)) :
    (padNat n (k + 1)).data.length = k + 1
      ∧ (∀ c ∈ (padNat n (k + 1)).data, isDigitChar c = true)
      ∧ digitsVal (padNat n (k + 1)).data 0 = n := by
  have hlen := natDigits_length n n k h
  have hdata : (padNat n (k + 1)).data
      = List.replicate (k + 1 - (natDigits n n).length) '0' ++ natDigits n n := by
    simp [padNat, padStart, natToString, String.length]
  rw [hdata]
  refine ⟨?_, ?_, ?_⟩
  · simp only [List.length_append, List.length_replicate]
    omega
  · intro c hc
    rw [List.mem_append] at hc
    rcases hc with hc | hc
    · rw [(List.mem_replicate.mp hc).2]
      decide
    · exact natDigits_isDigit n n c hc
  · rw [digitsVal_replicate_zero, digitsVal_natDigits n n le_rfl]

theorem readDigits_append (n : Nat) (ds rest : List Char) (hlen : ds.length = n)
    (hd : ∀ c ∈ ds, isDigitChar c = true) :
    readDigits n (ds ++ rest) = some (digitsVal ds 0, rest) := by
  unfold readDigits
  have h1 : (ds ++ rest).take n = ds := by
    rw [← hlen]; simp
  have h2 : (ds ++ rest).drop n = rest := by
    rw [← hlen]; simp
  have h3 : n ≤ (ds ++ rest).length := by
    simp [hlen]
  rw [h1, h2, if_pos ⟨h3, List.all_eq_true.mpr hd⟩]

theorem readField_append (n : Nat) (sep : Char) (ds rest : List Char) (hlen : ds.length = n)
    (hd : ∀ c ∈ ds, isDigitChar c = true) :
    readField n sep (ds ++ sep :: rest) = some (digitsVal ds 0, rest) := by
  unfold readField
  rw [readDigits_append n ds _ hlen hd]
  simp [readChar]

/-- The clock fields of a time value recompose its time within the day. -/
theorem time_fields (t : Int) :
    HourFromTime t * 3600000 + MinFromTime t * 60000 + SecFromTime t * 1000 + msFromTime t
      = TimeWithinDay t := by
  unfold HourFromTime MinFromTime SecFromTime msFromTime TimeWithinDay msPerDay
  omega

theorem time_fields_range (t : Int) :
    (0 ≤ HourFromTime t ∧ HourFromTime t ≤ 23) ∧ (0 ≤ MinFromTime t ∧ MinFromTime t ≤ 59)
      ∧ (0 ≤ SecFromTime t ∧ SecFromTime t ≤ 59) ∧ (0 ≤ msFromTime t ∧ msFromTime t ≤ 999) := by
  unfold HourFromTime MinFromTime SecFromTime msFromTime
  omega

/-- The year of a valid time value has at most six digits. -/
theorem YearFromTime_range (t : Int) (h : TimeClip t = some t) :
    -271821 ≤ YearFromTime t ∧ YearFromTime t ≤ 275760 := by
  have ht : -8640000000000000 ≤ t ∧ t ≤ 8640000000000000 := by
    unfold TimeClip at h
    split at h
    · assumption
    · cases h
  have hs := yearOfDay_spec (Day t)
  have hd : -100000000 ≤ Day t ∧ Day t ≤ 100000000 := by
    unfold Day msPerDay
    omega
  unfold YearFromTime
  generalize yearOfDay (Day t) = y at hs
  unfold DayFromYear at hs
  omega

theorem DateFromTime_le_daysInMonth (t : Int) :
    DateFromTime t ≤ daysInMonth (MonthFromTime t) (InLeapYear t) := by
  have h := DayWithinYear_range t
  have hl := InLeapYear_range t
  unfold DateFromTime MonthFromTime daysInMonth
  generalize DayWithinYear t = d at *
  generalize InLeapYear t = l at *
  unfold monthOfDay monthStart
  omega

theorem isDigitChar_ne_sign (c : Char) (h : isDigitChar c = true) : c ≠ '+' ∧ c ≠ '-' := by
  constructor <;> rintro rfl <;> revert h <;> decide

/-- The year field of `toISOString`, as a string. -/
theorem readIsoYear_spec (y : Int) (hy : -271821 ≤ y ∧ y ≤ 275760) (rest : List Char) :
    readIsoYear ((if 0 ≤ y ∧ y ≤ 9999 then padNat y.natAbs 4
        else (if y < 0 then "-" else "+") ++ padNat y.natAbs 6).data ++ rest)
      = some (y, rest) := by
  split
  · next h =>
    obtain ⟨hlen, hdig, hval⟩ := padNat_spec y.natAbs 3 (by omega)
    generalize (padNat y.natAbs (3 + 1)).data = ds at hlen hdig hval
    cases ds with
    | nil => simp at hlen
    | cons c cs =>
      have hc := isDigitChar_ne_sign c (hdig c (by simp))
      have hr := readDigits_append 4 (c :: cs) rest hlen hdig
      simp only [List.cons_append] at hr
      simp only [readIsoYear, List.cons_append, hc.1, hc.2, if_false, hr, Option.map_some', hval]
      congr 2
      omega
  · next h =>
    obtain ⟨hlen, hdig, hval⟩ := padNat_spec y.natAbs 5 (by omega)
    have hr := readDigits_append 6 (padNat y.natAbs (5 + 1)).data rest hlen hdig
    split
    · next hneg =>
      have hd : ("-" ++ padNat y.natAbs 6).data ++ rest
          = '-' :: ((padNat y.natAbs 6).data ++ rest) := by
        simp [String.data_append]
      have hne : y.natAbs ≠ 0 := by omega
      rw [hd]
      simp only [readIsoYear, hr, hval, Option.some_bind, if_neg hne]
      simp only [show ('-' : Char) ≠ '+' by decide, if_false, if_true, Option.some.injEq,
        Prod.mk.injEq, and_true]
      omega
    · next hpos =>
      have hd : ("+" ++ padNat y.natAbs 6).data ++ rest
          = '+' :: ((padNat y.natAbs 6).data ++ rest) := by
        simp [String.data_append]
      rw [hd]
      simp only [readIsoYear, hr, hval, if_true, Option.map_some', Option.some.injEq,
        Prod.mk.injEq, and_true]
      omega

theorem toISOString_data (t : Int) :
    (toISOString t).data
      = (if 0 ≤ YearFromTime t ∧ YearFromTime t ≤ 9999 then padNat (YearFromTime t).natAbs 4
          else (if YearFromTime t < 0 then "-" else "+") ++ padNat (YearFromTime t).natAbs 6).data
        ++ '-' :: ((padNat (MonthFromTime t + 1).natAbs 2).data
        ++ '-' :: ((padNat (DateFromTime t).natAbs 2).data
        ++ 'T' :: ((padNat (HourFromTime t).natAbs 2).data
        ++ ':' :: ((padNat (MinFromTime t).natAbs 2).data
        ++ ':' :: ((padNat (SecFromTime t).natAbs 2).data
        ++ '.' :: ((padNat (msFromTime t).natAbs 3).data ++ ['Z'])))))) := by
  simp [toISOString, String.data_append]

/-- The reference `Date.parse` reads back what `toISOString` writes. -/
theorem refDateParse_toISOString (t : Int) (h : TimeClip t = some t) :
    refDateParse (toISOString t) = some t := by
  have hy := YearFromTime_range t h
  have hm := MonthFromTime_range t
  have hd := DateFromTime_range t
  have hdm := DateFromTime_le_daysInMonth t
  obtain ⟨hh, hmi, hs, hms⟩ := time_fields_range t
  obtain ⟨lmo, dmo, vmo⟩ := padNat_spec (MonthFromTime t + 1).natAbs 1 (by omega)
  obtain ⟨lda, dda, vda⟩ := padNat_spec (DateFromTime t).natAbs 1 (by omega)
  obtain ⟨lho, dho, vho⟩ := padNat_spec (HourFromTime t).natAbs 1 (by omega)
  obtain ⟨lmi, dmi, vmi⟩ := padNat_spec (MinFromTime t).natAbs 1 (by omega)
  obtain ⟨lse, dse, vse⟩ := padNat_spec (SecFromTime t).natAbs 1 (by omega)
  obtain ⟨lms, dms, vms⟩ := padNat_spec (msFromTime t).natAbs 2 (by omega)
  have hday : readIsoDay (toISOString t).data
      = some (Day t, (padNat (HourFromTime t).natAbs 2).data
        ++ ':' :: ((padNat (MinFromTime t).natAbs 2).data
        ++ ':' :: ((padNat (SecFromTime t).natAbs 2).data
        ++ '.' :: ((padNat (msFromTime t).natAbs 3).data ++ ['Z'])))) := by
    rw [toISOString_data]
    unfold readIsoDay
    rw [readIsoYear_spec _ hy]
    simp only [Option.some_bind, readChar, if_true]
    rw [readField_append 2 '-' _ _ lmo dmo, Option.some_bind,
      readField_append 2 'T' _ _ lda dda, Option.some_bind]
    simp only [vmo, vda]
    have e1 : (((MonthFromTime t + 1).natAbs : Nat) : Int) - 1 = MonthFromTime t := by omega
    have e2 : (((DateFromTime t).natAbs : Nat) : Int) = DateFromTime t := by omega
    have hleap : (if DaysInYear (YearFromTime t) = 366 then (1 : Int) else 0) = InLeapYear t := rfl
    rw [e1, e2, hleap, MakeDay_of_time]
    have c1 : decide (1 ≤ (MonthFromTime t + 1).natAbs) = true := by
      rw [decide_eq_true_eq]; omega
    have c2 : decide ((MonthFromTime t + 1).natAbs ≤ 12) = true := by
      rw [decide_eq_true_eq]; omega
    have c3 : decide (1 ≤ (DateFromTime t).natAbs) = true := by
      rw [decide_eq_true_eq]; omega
    have c4 : decide (DateFromTime t ≤ daysInMonth (MonthFromTime t) (InLeapYear t)) = true := by
      rw [decide_eq_true_eq]; exact hdm
    rw [c1, c2, c3, c4]
    simp
  have htime : readIsoTime ((padNat (HourFromTime t).natAbs 2).data
        ++ ':' :: ((padNat (MinFromTime t).natAbs 2).data
        ++ ':' :: ((padNat (SecFromTime t).natAbs 2).data
        ++ '.' :: ((padNat (msFromTime t).natAbs 3).data ++ ['Z']))))
      = some (TimeWithinDay t, []) := by
    unfold readIsoTime
    rw [readField_append 2 ':' _ _ lho dho, Option.some_bind,
      readField_append 2 ':' _ _ lmi dmi, Option.some_bind,
      readField_append 2 '.' _ _ lse dse, Option.some_bind,
      readField_append 3 'Z' _ _ lms dms, Option.some_bind]
    simp only [vho, vmi, vse, vms]
    have c1 : decide ((HourFromTime t).natAbs ≤ 23) = true := by
      rw [decide_eq_true_eq]; omega
    have c2 : decide ((MinFromTime t).natAbs ≤ 59) = true := by
      rw [decide_eq_true_eq]; omega
    have c3 : decide ((SecFromTime t).natAbs ≤ 59) = true := by
      rw [decide_eq_true_eq]; omega
    rw [c1, c2, c3]
    have e := time_fields t
    simp only [Bool.and_self, if_true, Option.some.injEq, Prod.mk.injEq, and_true]
    omega
  unfold refDateParse
  rw [hday, Option.some_bind, htime, Option.some_bind]
  simp only [List.isEmpty_nil, if_true, Option.some.injEq]
  exact Day_add_TimeWithinDay t

/-! ### JSON texts -/

theorem escapeJsonChar_plain (c : Char) (h : plainJsonChar c = true) : escapeJsonChar c = [c] := by
  simp only [plainJsonChar, Bool.and_eq_true, decide_eq_true_eq] at h
  obtain ⟨⟨h32, hq⟩, hb⟩ := h
  have h8 : c.toNat ≠ 8 := by omega
  have h12 : c.toNat ≠ 12 := by omega
  have h32' : ¬ c.toNat < 32 := by omega
  have hn : c ≠ '\n' := by rintro rfl; revert h32; decide
  have hr : c ≠ '\r' := by rintro rfl; revert h32; decide
  have ht : c ≠ '\t' := by rintro rfl; revert h32; decide
  simp [escapeJsonChar, hq, hb, hn, hr, ht, h8, h12, h32']

theorem quoteJsonString_plain (s : String) (h : ∀ c ∈ s.data, plainJsonChar c = true) :
    quoteJsonString s = '"' :: (s.data ++ ['"']) := by
  have hflat : ∀ l : List Char, (∀ c ∈ l, plainJsonChar c = true) →
      l.flatMap escapeJsonChar = l := by
    intro l
    induction l with
    | nil => intro _; rfl
    | cons c cs ih =>
      intro hl
      rw [List.flatMap_cons, escapeJsonChar_plain c (hl c (by simp)),
        ih (fun d hd => hl d (List.mem_cons_of_mem _ hd))]
      rfl
  simp [quoteJsonString, hflat s.data h]

theorem parseJsonString_plain (s rest acc : List Char) (h : ∀ c ∈ s, plainJsonChar c = true) :
    parseJsonString (s ++ '"' :: rest) acc = some (⟨acc.reverse ++ s⟩, rest) := by
  induction s generalizing acc with
  | nil =>
    rw [List.nil_append, parseJsonString.eq_def]
    simp
  | cons c cs ih =>
    have hc := h c (by simp)
    simp only [plainJsonChar, Bool.and_eq_true, decide_eq_true_eq] at hc
    obtain ⟨⟨h32, hq⟩, hb⟩ := hc
    have h32' : ¬ c.toNat < 32 := by omega
    rw [List.cons_append, parseJsonString.eq_def]
    simp only [hq, hb, h32', if_false]
    rw [ih _ (fun d hd => h d (List.mem_cons_of_mem _ hd))]
    simp

theorem plainJsonChar_of_digit (c : Char) (h : isDigitChar c = true) : plainJsonChar c = true := by
  have hc : 48 ≤ c.toNat ∧ c.toNat ≤ 57 := by simpa [isDigitChar] using h
  have hq : c ≠ '"' := by rintro rfl; revert h; decide
  have hb : c ≠ '\\' := by rintro rfl; revert h; decide
  simp only [plainJsonChar, Bool.and_eq_true, decide_eq_true_eq]
  exact ⟨⟨by omega, hq⟩, hb⟩

theorem padNat_isDigit (n w : Nat) (c : Char) (h : c ∈ (padNat n w).data) :
    isDigitChar c = true := by
  have hdata : (padNat n w).data
      = List.replicate (w - (natDigits n n).length) '0' ++ natDigits n n := by
    simp [padNat, padStart, natToString, String.length]
  rw [hdata, List.mem_append] at h
  rcases h with h | h
  · rw [(List.mem_replicate.mp h).2]
    decide
  · exact natDigits_isDigit n n c h

/-- An ISO timestamp needs no escape in a JSON string. -/
theorem toISOString_plain (t : Int) (c : Char) (h : c ∈ (toISOString t).data) :
    plainJsonChar c = true := by
  rw [toISOString_data] at h
  simp only [List.mem_append, List.mem_cons, List.mem_singleton, List.not_mem_nil, or_false] at h
  have hd : ∀ n w, c ∈ (padNat n w).data → plainJsonChar c = true :=
    fun n w hc => plainJsonChar_of_digit c (padNat_isDigit n w c hc)
  rcases h with h | h | h | h | h | h | h | h | h | h | h | h | h | h
  · split at h
    · exact hd _ _ h
    · rw [String.data_append, List.mem_append] at h
      rcases h with h | h
      · split at h <;> simp at h <;> subst h <;> decide
      · exact hd _ _ h
  all_goals first | exact hd _ _ h | (subst h; decide)

theorem spanDigits_append (ds rest : List Char) (d : Char)
    (hds : ∀ c ∈ ds, isDigitChar c = true) (hd : isDigitChar d = false) :
    spanDigits (ds ++ d :: rest) = (ds, d :: rest) := by
  induction ds with
  | nil => simp [spanDigits, hd]
  | cons c cs ih =>
    have hc := hds c (by simp)
    have ih' := ih (fun x hx => hds x (List.mem_cons_of_mem _ hx))
    simp [spanDigits, hc, ih']

theorem natDigits_ne_nil : ∀ (fuel n : Nat), natDigits fuel n ≠ []
  | 0, n => by simp [natDigits]
  | fuel + 1, n => by
    unfold natDigits
    split <;> simp

theorem digitChar_ne_zero : ∀ d, 1 ≤ d → d < 10 → digitChar d ≠ '0' := by decide

theorem natDigits_head : ∀ (fuel n : Nat), 1 ≤ n → n ≤ fuel →
    (natDigits fuel n).head? ≠ some '0'
  | 0, n, h1, h2 => by omega
  | fuel + 1, n, h1, h2 => by
    unfold natDigits
    split
    · next hlt =>
      simp only [List.head?_cons, ne_eq, Option.some.injEq]
      exact digitChar_ne_zero n h1 hlt
    · next hge =>
      have ih := natDigits_head fuel (n / 10) (by omega) (by omega)
      have hne := natDigits_ne_nil fuel (n / 10)
      cases hx : natDigits fuel (n / 10) with
      | nil => exact absurd hx hne
      | cons x xs =>
        rw [hx] at ih
        simpa using ih

theorem natDigits_zero : natDigits 0 0 = ['0'] := by decide

/-- The reference parser reads the decimal digits of `n`, followed by a comma, as
the number `n`. -/
theorem parseJsonNumber_nat (n : Nat) (rest : List Char) :
    parseJsonNumber (natDigits n n ++ ',' :: rest) = some (.num n, ',' :: rest) := by
  have hdig := natDigits_isDigit n n
  have hne := natDigits_ne_nil n n
  have hspan := spanDigits_append (natDigits n n) rest ',' hdig (by decide)
  have hhead : (natDigits n n ++ ',' :: rest).head? ≠ some '-' := by
    cases hx : natDigits n n with
    | nil => exact absurd hx hne
    | cons x xs =>
      have := hdig x (by rw [hx]; simp)
      simp only [List.cons_append, List.head?_cons, ne_eq, Option.some.injEq]
      rintro rfl
      revert this
      decide
  have hlead : ¬ ((natDigits n n).head? = some '0' ∧ (natDigits n n).length ≠ 1) := by
    rintro ⟨h0, hl⟩
    rcases Nat.eq_zero_or_pos n with hz | hp
    · subst hz
      rw [natDigits_zero] at hl
      simp at hl
    · exact natDigits_head n n hp le_rfl h0
  unfold parseJsonNumber
  simp only [hhead, decide_False, Bool.false_eq_true, if_false, hspan, hne, hlead,
    List.head?_cons, Option.some.injEq]
  simp only [show (',' : Char) ≠ '.' by decide, show (',' : Char) ≠ 'e' by decide,
    show (',' : Char) ≠ 'E' by decide, or_self, if_false, digitsVal_natDigits n n le_rfl]
  simp

theorem skipWs_of_not_ws (c : Char) (rest : List Char) (h : isWs c = false) :
    skipWs (c :: rest) = c :: rest := by
  simp [skipWs, h]

theorem parseJsonValue_nat (fuel n : Nat) (rest : List Char) :
    parseJsonValue (fuel + 1) (natDigits n n ++ ',' :: rest) = some (.num n, ',' :: rest) := by
  have hnum := parseJsonNumber_nat n rest
  have hdig := natDigits_isDigit n n
  cases hx : natDigits n n with
  | nil => exact absurd hx (natDigits_ne_nil n n)
  | cons x xs =>
    rw [hx] at hnum
    have hxd := hdig x (by rw [hx]; simp)
    have hws : isWs x = false := by
      cases h : isWs x
      · rfl
      · exfalso
        simp only [isWs, Bool.or_eq_true, decide_eq_true_eq] at h
        rcases h with ((rfl | rfl) | rfl) | rfl <;> revert hxd <;> decide
    have h1 : x ≠ '"' := by rintro rfl; revert hxd; decide
    have h2 : x ≠ '[' := by rintro rfl; revert hxd; decide
    have h3 : x ≠ '{' := by rintro rfl; revert hxd; decide
    have h4 : x ≠ 'n' := by rintro rfl; revert hxd; decide
    have h5 : x ≠ 't' := by rintro rfl; revert hxd; decide
    have h6 : x ≠ 'f' := by rintro rfl; revert hxd; decide
    rw [List.cons_append] at hnum ⊢
    rw [parseJsonValue, skipWs_of_not_ws x _ hws]
    simp only [h1, h2, h3, if_false]
    simp [List.isPrefixOf, Ne.symm h4, Ne.symm h5, Ne.symm h6, hnum]

theorem parseJsonValue_string (fuel : Nat) (s rest : List Char)
    (h : ∀ c ∈ s, plainJsonChar c = true) :
    parseJsonValue (fuel + 1) ('"' :: (s ++ '"' :: rest)) = some (.str ⟨s⟩, rest) := by
  rw [parseJsonValue, skipWs_of_not_ws _ _ (by decide)]
  simp [parseJsonString_plain s rest [] h]

/-- One member of an object that is followed by another one. -/
theorem parseJsonMembers_step (fuel : Nat) (name vtext rest : List Char) (v : JSVal)
    (acc : List (String × JSVal)) (hname : ∀ c ∈ name, plainJsonChar c = true)
    (hv : parseJsonValue fuel (vtext ++ ',' :: rest) = some (v, ',' :: rest)) :
    parseJsonMembers (fuel + 1) ('"' :: (name ++ '"' :: ':' :: (vtext ++ ',' :: rest))) acc
      = parseJsonMembers fuel rest (setProp ⟨name⟩ v acc) := by
  rw [parseJsonMembers, skipWs_of_not_ws _ _ (by decide)]
  simp only [if_true, parseJsonString_plain name _ [] hname, List.reverse_nil, List.nil_append]
  rw [skipWs_of_not_ws _ _ (by decide)]
  simp only [if_true, hv]
  rw [skipWs_of_not_ws _ _ (by decide)]
  simp

/-- The last member of an object. -/
theorem parseJsonMembers_last (fuel : Nat) (name vtext rest : List Char) (v : JSVal)
    (acc : List (String × JSVal)) (hname : ∀ c ∈ name, plainJsonChar c = true)
    (hv : parseJsonValue fuel (vtext ++ '}' :: rest) = some (v, '}' :: rest)) :
    parseJsonMembers (fuel + 1) ('"' :: (name ++ '"' :: ':' :: (vtext ++ '}' :: rest))) acc
      = some (.obj (setProp ⟨name⟩ v acc), rest) := by
  rw [parseJsonMembers, skipWs_of_not_ws _ _ (by decide)]
  simp only [if_true, parseJsonString_plain name _ [] hname, List.reverse_nil, List.nil_append]
  rw [skipWs_of_not_ws _ _ (by decide)]
  simp only [if_true, hv]
  rw [skipWs_of_not_ws _ _ (by decide)]
  simp

theorem intToString_natCast (n : Nat) : intToString (n : Int) = natToString n := by
  unfold intToString
  rw [if_neg (by omega)]
  simp

/-- The JSON text that the reference `JSON.stringify` writes for the record of the
saving effect. -/
theorem refJsonStringify_intakeData (w c : Nat) (iso : String)
    (hiso : ∀ ch ∈ iso.data, plainJsonChar ch = true) :
    (refJsonStringify (intakeData (.num w) (.num c) iso)).data
      = '{' :: ('"' :: ("waterIntake".data ++ '"' :: ':' :: (natDigits w w ++ ',' ::
          ('"' :: ("calorieIntake".data ++ '"' :: ':' :: (natDigits c c ++ ',' ::
          ('"' :: ("timestamp".data ++ '"' :: ':' :: (('"' :: (iso.data ++ ['"'])) ++ ',' ::
          ('"' :: ("date".data ++ '"' :: ':' :: (('"' :: (iso.data ++ ['"'])) ++ '}' ::
            [])))))))))))) := by
  have hw : quoteJsonString "waterIntake" = '"' :: ("waterIntake".data ++ ['"']) := by decide
  have hc : quoteJsonString "calorieIntake" = '"' :: ("calorieIntake".data ++ ['"']) := by decide
  have ht : quoteJsonString "timestamp" = '"' :: ("timestamp".data ++ ['"']) := by decide
  have hd : quoteJsonString "date" = '"' :: ("date".data ++ ['"']) := by decide
  simp only [refJsonStringify, intakeData, stringifyJson, stringifyJsonMembers, Option.getD_some,
    Rat.den_natCast, Rat.num_natCast, if_true, intToString_natCast, natToString,
    quoteJsonString_plain iso hiso, hw, hc, ht, hd, Bool.false_eq_true, if_false]
  simp only [List.append_assoc, List.cons_append, List.nil_append, List.singleton_append,
    List.append_nil]

/-- The reference `JSON.parse` reads back the record that the reference
`JSON.stringify` wrote. -/
theorem refJson_intakeData (w c : Nat) (iso : String)
    (hiso : ∀ ch ∈ iso.data, plainJsonChar ch = true) :
    refJsonParse (refJsonStringify (intakeData (.num w) (.num c) iso))
      = some (intakeData (.num w) (.num c) iso) := by
  have htext := refJsonStringify_intakeData w c iso hiso
  have hlen : ∃ k, (refJsonStringify (intakeData (.num w) (.num c) iso)).length + 1 = k + 6 := by
    refine ⟨(refJsonStringify (intakeData (.num w) (.num c) iso)).length - 5, ?_⟩
    have : 5 ≤ (refJsonStringify (intakeData (.num w) (.num c) iso)).length := by
      rw [String.length, htext]
      simp only [List.length_cons, List.length_append]
      omega
    omega
  obtain ⟨k, hk⟩ := hlen
  have hname : ∀ s : String, (∀ ch ∈ s.data, plainJsonChar ch = true) →
      ∀ ch ∈ s.data, plainJsonChar ch = true := fun _ h => h
  have hstr : ∀ (fuel : Nat) (d : Char) (rest : List Char),
      parseJsonValue (fuel + 1) (('"' :: (iso.data ++ ['"'])) ++ d :: rest)
        = some (.str iso, d :: rest) := by
    intro fuel d rest
    have := parseJsonValue_string fuel iso.data (d :: rest) hiso
    simpa using this
  unfold refJsonParse
  rw [hk, htext, parseJsonValue, skipWs_of_not_ws _ _ (by decide)]
  simp only [show ('{' : Char) ≠ '"' by decide, show ('{' : Char) ≠ '[' by decide, if_false,
    if_true]
  rw [skipWs_of_not_ws _ _ (by decide)]
  simp only [show ('"' : Char) ≠ '}' by decide, if_false]
  rw [parseJsonMembers_step (k + 4) "waterIntake".data _ _ (.num w) [] (by decide)
      (parseJsonValue_nat (k + 3) w _),
    parseJsonMembers_step (k + 3) "calorieIntake".data _ _ (.num c) _ (by decide)
      (parseJsonValue_nat (k + 2) c _),
    parseJsonMembers_step (k + 2) "timestamp".data _ _ (.str iso) _ (by decide)
      (hstr (k + 1) ',' _),
    parseJsonMembers_last (k + 1) "date".data _ _ (.str iso) _ (by decide)
      (hstr k '}' _)]
  simp [skipWs, setProp, intakeData]

/-! ## The claims -/

theorem toISOString_ne_empty (t : Int) : toISOString t ≠ "" := by
  intro h
  have := congrArg String.length h
  simp only [toISOString, String.length_append] at this
  have hz : "Z".length = 1 := rfl
  have he : "".length = 0 := rfl
  omega

theorem or_zero_nat (n : ℕ) : (JSVal.num n).or (.num 0) = .num n := by
  unfold JSVal.or JSVal.truthy
  by_cases h : (n : ℚ) = 0 <;> simp [h]

/-- Saving and then loading on the same local day returns what was saved, on any
platform where the write is accepted, `JSON.parse` reads back what
`JSON.stringify` wrote and `Date.parse` reads back the ISO timestamp. -/
theorem save_load_core (P : Platform) (store : Storage) (now later : Int) (w c : ℕ)
    (hquota : P.quotaAllows store (getTodayKey P.tz now)
      (P.jsonStringify (intakeData (.num w) (.num c) (toISOString now))) = true)
    (htext : P.jsonStringify (intakeData (.num w) (.num c) (toISOString now)) ≠ "")
    (hjson : P.jsonParse (P.jsonStringify (intakeData (.num w) (.num c) (toISOString now)))
      = some (intakeData (.num w) (.num c) (toISOString now)))
    (hdate : P.dateParse (toISOString now) = some now)
    (hclock : TimeClip now = some now)
    (hday : getTodayKey P.tz later = getTodayKey P.tz now) :
    loadInitialIntake P later (saveIntake P now (.num w) (.num c) store)
      = ({ waterIntake := .num w, calorieIntake := .num c },
          saveIntake P now (.num w) (.num c) store) := by
  have hsave : saveIntake P now (.num w) (.num c) store
      = setItem store (getTodayKey P.tz now)
          (P.jsonStringify (intakeData (.num w) (.num c) (toISOString now))) := by
    simp [saveIntake, hquota]
  have hget : getItem (saveIntake P now (.num w) (.num c) store) (getTodayKey P.tz later)
      = some (P.jsonStringify (intakeData (.num w) (.num c) (toISOString now))) := by
    rw [hsave, hday, getItem_setItem_self]
  have hprop : ∀ name, (intakeData (.num w) (.num c) (toISOString now)).getProp name
      = some (JSVal.lookup name [("waterIntake", .num w), ("calorieIntake", .num c),
          ("timestamp", .str (toISOString now)), ("date", .str (toISOString now))]) :=
    fun _ => rfl
  have hts : (intakeData (.num w) (.num c) (toISOString now)).getProp "timestamp"
      = some (.str (toISOString now)) := by
    rw [hprop]; simp [JSVal.lookup]
  have hw : (intakeData (.num w) (.num c) (toISOString now)).getProp "waterIntake"
      = some (.num w) := by
    rw [hprop]; simp [JSVal.lookup]
  have hc : (intakeData (.num w) (.num c) (toISOString now)).getProp "calorieIntake"
      = some (.num c) := by
    rw [hprop]; simp [JSVal.lookup]
  have htruthy : (JSVal.str (toISOString now)).truthy = true := by
    simp [JSVal.truthy, toISOString_ne_empty]
  have hnew : newDate P (.str (toISOString now)) = some (some now) := by
    simp [newDate, hdate, hclock]
  obtain ⟨hy, hm, hd⟩ := getTodayKey_inj P.tz later now hday
  have hDay : Day (LocalTime P.tz now) = Day (LocalTime P.tz later) :=
    (Day_eq_of_civil_eq _ _ hy hm hd).symm
  have hlt := lt_msPerDay_of_Day_eq _ _ hDay
  have hdec : decide (86400000 ≤ later - now) = false := by
    rw [decide_eq_false_iff_not]
    unfold LocalTime msPerDay at hlt
    omega
  have hfresh : isDataExpired P later (.str (toISOString now)) = some false := by
    have h := isDataExpired_valid P later now _ htruthy hnew
    rw [hdec] at h
    exact h
  rw [loadInitialIntake_kept P later _ _ _ _ _ _ hget htext hjson hts htruthy hfresh hw hc,
    or_zero_nat, or_zero_nat]


theorem refJsonStringify_ne_empty (w c : Nat) (t : Int) :
    refJsonStringify (intakeData (.num w) (.num c) (toISOString t)) ≠ "" := by
  intro h
  have hd := congrArg String.data h
  rw [refJsonStringify_intakeData w c _ (toISOString_plain t)] at hd
  simp at hd

/-- C1 (round trip).  After the saving effect has written the non-negative integer
totals `w`, `c` at the instant `now`, `loadInitialIntake` run at any instant
`later` of the same local calendar day returns exactly `{waterIntake: w,
calorieIntake: c}` and leaves the store as it is.  This holds on every platform
on which the write is accepted, `JSON.parse` reads back what `JSON.stringify`
wrote for the record and `Date.parse` reads back the ISO timestamp of the clock
reading; and it holds on the reference platform, which obeys these laws, for
every store, every totals and every clock reading. -/
theorem save_load_round_trip (store : Storage) (now later : Int) (w c : ℕ) :
    (∀ P : Platform,
      P.quotaAllows store (getTodayKey P.tz now)
        (P.jsonStringify (intakeData (.num w) (.num c) (toISOString now))) = true →
      P.jsonStringify (intakeData (.num w) (.num c) (toISOString now)) ≠ "" →
      P.jsonParse (P.jsonStringify (intakeData (.num w) (.num c) (toISOString now)))
        = some (intakeData (.num w) (.num c) (toISOString now)) →
      P.dateParse (toISOString now) = some now →
      TimeClip now = some now →
      getTodayKey P.tz later = getTodayKey P.tz now →
      loadInitialIntake P later (saveIntake P now (.num w) (.num c) store)
        = ({ waterIntake := .num w, calorieIntake := .num c },
            saveIntake P now (.num w) (.num c) store))
    ∧ (TimeClip now = some now →
      getTodayKey refPlatform.tz later = getTodayKey refPlatform.tz now →
      loadInitialIntake refPlatform later (saveIntake refPlatform now (.num w) (.num c) store)
        = ({ waterIntake := .num w, calorieIntake := .num c },
            saveIntake refPlatform now (.num w) (.num c) store)) := by
  refine ⟨fun P hquota htext hjson hdate hclock hday =>
    save_load_core P store now later w c hquota htext hjson hdate hclock hday, ?_⟩
  intro hclock hday
  have hquota : refPlatform.quotaAllows store (getTodayKey refPlatform.tz now)
      (refPlatform.jsonStringify (intakeData (.num w) (.num c) (toISOString now))) = true := by
    simp only [refPlatform]
  have htext : refPlatform.jsonStringify (intakeData (.num w) (.num c) (toISOString now)) ≠ "" := by
    simp only [refPlatform]
    exact refJsonStringify_ne_empty w c now
  have hjson : refPlatform.jsonParse
      (refPlatform.jsonStringify (intakeData (.num w) (.num c) (toISOString now)))
      = some (intakeData (.num w) (.num c) (toISOString now)) := by
    simp only [refPlatform]
    exact refJson_intakeData w c _ (toISOString_plain now)
  have hdate : refPlatform.dateParse (toISOString now) = some now := by
    simp only [refPlatform]
    exact refDateParse_toISOString now hclock
  exact save_load_core refPlatform store now later w c hquota htext hjson hdate hclock hday

/-- Witness of C1: on the reference platform, saving 3 and 450 at `sampleNow` into
a store that holds the goals and loading at the same instant. -/
theorem save_load_round_trip_witness :
    TimeClip sampleNow = some sampleNow
    ∧ loadInitialIntake refPlatform sampleNow
        (saveIntake refPlatform sampleNow (.num (3 : ℕ)) (.num (450 : ℕ))
          [("health-tracker-goals", "\x7b\"waterGoal\":10\x7d")])
      = ({ waterIntake := .num (3 : ℕ), calorieIntake := .num (450 : ℕ) },
          saveIntake refPlatform sampleNow (.num (3 : ℕ)) (.num (450 : ℕ))
            [("health-tracker-goals", "\x7b\"waterGoal\":10\x7d")]) :=
  ⟨by decide,
    (save_load_round_trip [("health-tracker-goals", "\x7b\"waterGoal\":10\x7d")]
      sampleNow sampleNow 3 450).2 (by decide) rfl⟩

/-- C2 (expiration boundary).  For every instant `now` and every timestamp that is
present (truthy) and converts to the time value `ts`, `isDataExpired` answers
true exactly when `now - ts` is at least 24 hours, and false otherwise; so a
timestamp 24 hours and one second old is expired and one 23 hours 59 minutes 59
seconds old is not. -/
theorem isDataExpired_boundary (P : Platform) (now ts : Int) (v : JSVal)
    (hpresent : v.truthy = true) (hparse : newDate P v = some (some ts)) :
    (isDataExpired P now v = some true ↔ now - ts ≥ 24 * 60 * 60 * 1000)
    ∧ (isDataExpired P now v = some false ↔ now - ts < 24 * 60 * 60 * 1000)
    ∧ (ts = now - (24 * 60 * 60 * 1000 + 1000) → isDataExpired P now v = some true)
    ∧ (ts = now - (23 * 60 * 60 * 1000 + 59 * 60 * 1000 + 59 * 1000) →
        isDataExpired P now v = some false) := by
  rw [isDataExpired_valid P now ts v hpresent hparse]
  simp only [Option.some.injEq, decide_eq_true_eq, decide_eq_false_iff_not]
  refine ⟨by omega, by omega, ?_, ?_⟩ <;> intro h <;> omega

/-- Witness of C2: on the reference platform at `sampleNow`, the ISO timestamp of
24 hours and one second earlier. -/
theorem isDataExpired_boundary_witness :
    (JSVal.str "2024-02-28T12:34:55.789Z").truthy = true
    ∧ newDate refPlatform (.str "2024-02-28T12:34:55.789Z") = some (some (sampleNow - 86401000))
    ∧ isDataExpired refPlatform sampleNow (.str "2024-02-28T12:34:55.789Z") = some true :=
  ⟨by decide, by decide,
    (isDataExpired_boundary refPlatform sampleNow (sampleNow - 86401000)
      (.str "2024-02-28T12:34:55.789Z") (by decide) (by decide)).2.2.1 (by decide)⟩

/-- Counterexample to C3: on the reference platform the timestamp `"not-a-date"`
cannot be parsed as a date, the expiry check answers false for it, and the load
returns the stored counts 5 and 700 instead of the zero record. -/
theorem unparseable_timestamp_kept :
    refPlatform.dateParse "not-a-date" = none
    ∧ isDataExpired refPlatform sampleNow (.str "not-a-date") = some false
    ∧ loadInitialIntake refPlatform sampleNow
        [("health-tracker-2024-02-29",
          "\x7b\"waterIntake\":5,\"calorieIntake\":700,\"timestamp\":\"not-a-date\"\x7d")]
      = ({ waterIntake := .num 5, calorieIntake := .num 700 },
          [("health-tracker-2024-02-29",
            "\x7b\"waterIntake\":5,\"calorieIntake\":700,\"timestamp\":\"not-a-date\"\x7d")]) :=
  ⟨by decide, by rfl, by rfl⟩

/-- C3, amended.  For every stored record whose timestamp is missing (reading it
gives a falsy value: no such property, `null`, the empty string, zero), the
expiry check reports the record as expired and the load returns the zero record,
removing the entry. -/
theorem missing_timestamp_expired (P : Platform) (now : Int) (store : Storage)
    (raw : String) (data ts : JSVal)
    (hstored : getItem store (getTodayKey P.tz now) = some raw) (hraw : raw ≠ "")
    (hjson : P.jsonParse raw = some data) (hts : data.getProp "timestamp" = some ts)
    (hmissing : ts.truthy = false) :
    isDataExpired P now ts = some true
    ∧ loadInitialIntake P now store
      = ({ waterIntake := .num 0, calorieIntake := .num 0 },
          removeItem store (getTodayKey P.tz now)) :=
  ⟨isDataExpired_falsy P now ts hmissing,
    loadInitialIntake_no_timestamp P now store raw data ts hstored hraw hjson hts hmissing⟩

/-- Witness of the amended C3: a record without a timestamp under today's key. -/
theorem missing_timestamp_expired_witness :
    isDataExpired refPlatform sampleNow .undefined = some true
    ∧ loadInitialIntake refPlatform sampleNow
        [("health-tracker-2024-02-29", "\x7b\"waterIntake\":5,\"calorieIntake\":700\x7d")]
      = ({ waterIntake := .num 0, calorieIntake := .num 0 }, removeItem
          [("health-tracker-2024-02-29", "\x7b\"waterIntake\":5,\"calorieIntake\":700\x7d")]
          (getTodayKey refPlatform.tz sampleNow)) :=
  missing_timestamp_expired refPlatform sampleNow _ "\x7b\"waterIntake\":5,\"calorieIntake\":700\x7d"
    (.obj [("waterIntake", .num 5), ("calorieIntake", .num 700)]) .undefined
    (by decide) (by decide) (by rfl) (by rfl) (by rfl)

/-- Counterexample to C4: on the reference platform a record stored with
`waterIntake: -5` and a fresh timestamp is returned as it is, so the
`waterIntake` returned is not a non-negative number. -/
theorem negative_intake_returned :
    (loadInitialIntake refPlatform sampleNow
        [("health-tracker-2024-02-29",
          "\x7b\"waterIntake\":-5,\"calorieIntake\":100,\"timestamp\":\"2024-02-29T12:00:00.000Z\"\x7d")]).1.waterIntake
      = .num (-5)
    ∧ nonNegFinite (loadInitialIntake refPlatform sampleNow
        [("health-tracker-2024-02-29",
          "\x7b\"waterIntake\":-5,\"calorieIntake\":100,\"timestamp\":\"2024-02-29T12:00:00.000Z\"\x7d")]).1.waterIntake
      = false := by
  have hx : isDataExpired refPlatform sampleNow (.str "2024-02-29T12:00:00.000Z") = some false :=
    isDataExpired_valid refPlatform sampleNow 1709208000000 _ (by decide) (by decide)
  have hload := loadInitialIntake_kept refPlatform sampleNow
    [("health-tracker-2024-02-29",
      "\x7b\"waterIntake\":-5,\"calorieIntake\":100,\"timestamp\":\"2024-02-29T12:00:00.000Z\"\x7d")]
    "\x7b\"waterIntake\":-5,\"calorieIntake\":100,\"timestamp\":\"2024-02-29T12:00:00.000Z\"\x7d"
    (.obj [("waterIntake", .num (-5)), ("calorieIntake", .num 100),
      ("timestamp", .str "2024-02-29T12:00:00.000Z")])
    (.str "2024-02-29T12:00:00.000Z") (.num (-5)) (.num 100)
    (by decide) (by decide) (by rfl) (by rfl) (by decide) hx (by rfl) (by rfl)
  rw [hload]
  exact ⟨by rfl, by decide⟩

theorem or_zero_cases (v : JSVal) :
    (v.truthy = true ∧ v.or (.num 0) = v) ∨ (v.truthy = false ∧ v.or (.num 0) = .num 0) := by
  unfold JSVal.or
  cases h : v.truthy <;> simp

theorem nonNegFinite_zero : nonNegFinite (.num 0) = true := by decide

/-- C4, amended.  For every content of the store, `loadInitialIntake` returns a
record in which each of `waterIntake` and `calorieIntake` is either 0 or the
truthy value stored for that field, unchanged; a field that is missing from the
stored record (reading it gives a falsy value) is returned as 0.  No sign or
finiteness check is made: the returned value is finite and non-negative whenever
the stored one is. -/
theorem loaded_fields_zero_or_stored (P : Platform) (now : Int) (store : Storage) :
    ((loadInitialIntake P now store).1.waterIntake = .num 0
      ∨ ∃ raw data, getItem store (getTodayKey P.tz now) = some raw
          ∧ P.jsonParse raw = some data
          ∧ data.getProp "waterIntake" = some (loadInitialIntake P now store).1.waterIntake
          ∧ (loadInitialIntake P now store).1.waterIntake.truthy = true)
    ∧ ((loadInitialIntake P now store).1.calorieIntake = .num 0
      ∨ ∃ raw data, getItem store (getTodayKey P.tz now) = some raw
          ∧ P.jsonParse raw = some data
          ∧ data.getProp "calorieIntake" = some (loadInitialIntake P now store).1.calorieIntake
          ∧ (loadInitialIntake P now store).1.calorieIntake.truthy = true)
    ∧ (∀ raw data v, getItem store (getTodayKey P.tz now) = some raw →
        P.jsonParse raw = some data → data.getProp "waterIntake" = some v →
        (v.truthy = false → (loadInitialIntake P now store).1.waterIntake = .num 0)
        ∧ (nonNegFinite v = true →
          nonNegFinite (loadInitialIntake P now store).1.waterIntake = true))
    ∧ (∀ raw data v, getItem store (getTodayKey P.tz now) = some raw →
        P.jsonParse raw = some data → data.getProp "calorieIntake" = some v →
        (v.truthy = false → (loadInitialIntake P now store).1.calorieIntake = .num 0)
        ∧ (nonNegFinite v = true →
          nonNegFinite (loadInitialIntake P now store).1.calorieIntake = true)) := by
  rcases loadInitialIntake_fields P now store with h | h | ⟨raw, data, w, c, hg, hp, hw, hc, h⟩
  · rw [h]
    exact ⟨Or.inl rfl, Or.inl rfl, fun _ _ _ _ _ _ => ⟨fun _ => rfl, fun _ => nonNegFinite_zero⟩,
      fun _ _ _ _ _ _ => ⟨fun _ => rfl, fun _ => nonNegFinite_zero⟩⟩
  · rw [h]
    exact ⟨Or.inl rfl, Or.inl rfl, fun _ _ _ _ _ _ => ⟨fun _ => rfl, fun _ => nonNegFinite_zero⟩,
      fun _ _ _ _ _ _ => ⟨fun _ => rfl, fun _ => nonNegFinite_zero⟩⟩
  · rw [h]
    simp only
    refine ⟨?_, ?_, ?_, ?_⟩
    · rcases or_zero_cases w with ⟨ht, he⟩ | ⟨_, he⟩
      · exact Or.inr ⟨raw, data, hg, hp, by rw [he]; exact hw, by rw [he]; exact ht⟩
      · exact Or.inl he
    · rcases or_zero_cases c with ⟨ht, he⟩ | ⟨_, he⟩
      · exact Or.inr ⟨raw, data, hg, hp, by rw [he]; exact hc, by rw [he]; exact ht⟩
      · exact Or.inl he
    · intro raw' data' v hg' hp' hv
      rw [hg] at hg'
      injection hg' with hraw
      subst hraw
      rw [hp] at hp'
      injection hp' with hdata
      subst hdata
      rw [hw] at hv
      injection hv with hv
      subst hv
      rcases or_zero_cases w with ⟨ht, he⟩ | ⟨_, he⟩
      · exact ⟨fun hf => (by rw [ht] at hf; cases hf), fun hn => (by rw [he]; exact hn)⟩
      · exact ⟨fun _ => he, fun _ => by rw [he]; exact nonNegFinite_zero⟩
    · intro raw' data' v hg' hp' hv
      rw [hg] at hg'
      injection hg' with hraw
      subst hraw
      rw [hp] at hp'
      injection hp' with hdata
      subst hdata
      rw [hc] at hv
      injection hv with hv
      subst hv
      rcases or_zero_cases c with ⟨ht, he⟩ | ⟨_, he⟩
      · exact ⟨fun hf => (by rw [ht] at hf; cases hf), fun hn => (by rw [he]; exact hn)⟩
      · exact ⟨fun _ => he, fun _ => by rw [he]; exact nonNegFinite_zero⟩

/-- Witness of the amended C4: a fresh record that has no `waterIntake` is read
with `waterIntake` 0. -/
theorem loaded_fields_zero_or_stored_witness :
    (loadInitialIntake refPlatform sampleNow
      [("health-tracker-2024-02-29",
        "\x7b\"calorieIntake\":100,\"timestamp\":\"2024-02-29T12:00:00.000Z\"\x7d")]).1.waterIntake
      = .num 0 :=
  ((loaded_fields_zero_or_stored refPlatform sampleNow
      [("health-tracker-2024-02-29",
        "\x7b\"calorieIntake\":100,\"timestamp\":\"2024-02-29T12:00:00.000Z\"\x7d")]).2.2.1
    "\x7b\"calorieIntake\":100,\"timestamp\":\"2024-02-29T12:00:00.000Z\"\x7d"
    (.obj [("calorieIntake", .num 100), ("timestamp", .str "2024-02-29T12:00:00.000Z")])
    .undefined (by decide) (by rfl) (by rfl)).1 (by rfl)

/-- C5 (corrupt record recovery).  For every string stored under today's key that
`JSON.parse` rejects, `loadInitialIntake` returns (it does not throw)
`{waterIntake: 0, calorieIntake: 0}` and leaves the store unchanged, the corrupt
entry included. -/
theorem corrupt_record_recovery (P : Platform) (now : Int) (store : Storage) (raw : String)
    (hstored : getItem store (getTodayKey P.tz now) = some raw)
    (hcorrupt : P.jsonParse raw = none) :
    loadInitialIntake P now store = ({ waterIntake := .num 0, calorieIntake := .num 0 }, store)
    ∧ getItem (loadInitialIntake P now store).2 (getTodayKey P.tz now) = some raw := by
  have h := loadInitialIntake_unparseable P now store raw hstored hcorrupt
  rw [h]
  exact ⟨rfl, hstored⟩

/-- Witness of C5: the text `{oops` under today's key on the reference
platform. -/
theorem corrupt_record_recovery_witness :
    refPlatform.jsonParse "\x7boops" = none
    ∧ loadInitialIntake refPlatform sampleNow
        [("health-tracker-goals", "\x7b\"waterGoal\":10\x7d"), ("health-tracker-2024-02-29", "\x7boops")]
      = ({ waterIntake := .num 0, calorieIntake := .num 0 },
          [("health-tracker-goals", "\x7b\"waterGoal\":10\x7d"), ("health-tracker-2024-02-29", "\x7boops")]) :=
  ⟨by rfl,
    (corrupt_record_recovery refPlatform sampleNow
      [("health-tracker-goals", "\x7b\"waterGoal\":10\x7d"), ("health-tracker-2024-02-29", "\x7boops")]
      "\x7boops" (by decide) (by rfl)).1⟩

theorem getProp_of_falsy (data ts : JSVal) (name : String) (hd : data.truthy = false)
    (h : data.getProp name = some ts) : ts.truthy = false := by
  cases data <;> simp_all [JSVal.getProp, JSVal.truthy] <;> subst h <;> rfl

theorem getProp_of_truthy (data : JSVal) (name : String) (hd : data.truthy = true) :
    ∃ ts, data.getProp name = some ts := by
  cases data <;> simp_all [JSVal.getProp, JSVal.truthy]

/-- When the loop marks a key of the namespace, in terms of the value stored
under it and the cut-off date. -/
theorem cleanupMarks_iff (P : Platform) (cutoff : Int) (store : Storage) (k raw : String)
    (hk : getItem store k = some raw) (hns : inRecordNamespace k = true) :
    cleanupMarks P (some cutoff) store k = true ↔
      (P.jsonParse raw = none
        ∨ ∃ data ts, P.jsonParse raw = some data ∧ data.getProp "timestamp" = some ts
            ∧ ts.truthy = true
            ∧ (newDate P ts = none ∨ ∃ t, newDate P ts = some (some t) ∧ t < cutoff)) := by
  unfold cleanupMarks cleanupTry
  simp only [hns, hk, Option.getD_some, Bool.true_and]
  cases hp : P.jsonParse raw with
  | none => simp
  | some data =>
    simp only [false_or, Option.some.injEq, exists_and_left, exists_eq_left', reduceCtorEq]
    cases hd : data.truthy with
    | false =>
      simp only [Bool.false_eq_true, if_false, false_iff]
      rintro ⟨ts, hts, ht, -⟩
      rw [getProp_of_falsy data ts _ hd hts] at ht
      cases ht
    | true =>
      obtain ⟨ts, hts⟩ := getProp_of_truthy data "timestamp" hd
      simp only [hts, if_true, Option.some.injEq, exists_eq_left']
      cases ht : ts.truthy with
      | false => simp
      | true =>
        simp only [if_true, true_and]
        cases hn : newDate P ts with
        | none => simp
        | some d =>
          cases d with
          | none => simp [dateLt]
          | some t =>
            by_cases hlt : t < cutoff <;> simp [dateLt, hlt]

/-- Counterexample to C6: on the reference platform the entry
`{"timestamp":{"toString":1}}` of the namespace is removed by the sweep although
its value parses and its timestamp is no date at all, let alone one older than
seven days (`new Date` throws on it, and the `catch` of the loop pushes the
key). -/
theorem sweep_removes_parseable_entry :
    refPlatform.jsonParse "\x7b\"timestamp\":\x7b\"toString\":1\x7d\x7d"
      = some (.obj [("timestamp", .obj [("toString", .num 1)])])
    ∧ newDate refPlatform (.obj [("toString", .num 1)]) = none
    ∧ getItem (cleanupOldData refPlatform sampleNow
        [("health-tracker-2024-02-28", "\x7b\"timestamp\":\x7b\"toString\":1\x7d\x7d")])
        "health-tracker-2024-02-28" = none :=
  ⟨by rfl, by rfl, by rfl⟩

/-- The cut-off of the sweep: the instant whose local wall-clock reading is that
of `now`, seven calendar days earlier. -/
theorem sevenDaysAgo_eq (P : Platform) (now : Int) :
    sevenDaysAgo P now
      = TimeClip (UTC (P.tzAtLocal (LocalTime P.tz now - 7 * msPerDay))
          (LocalTime P.tz now - 7 * msPerDay)) :=
  setDate_minus_seven P.tz P.tzAtLocal now

/-- C6, amended.  Let `cutoff` be the valid date `sevenDaysAgo` that
`setDate(getDate() - 7)` yields at `now`: the instant with the local wall-clock
reading of `now`, seven calendar days earlier.  `cleanupOldData` removes an entry of the namespace (key
starting with `health-tracker-`, other than the goals key) exactly when reading
it throws (its value fails to parse as JSON, or its timestamp cannot be converted
to a date at all) or it has a present (truthy) timestamp denoting a date older
than `cutoff`; every other entry of the namespace is retained with its value, in
particular one whose timestamp denotes a date not older than `cutoff`.  The
cut-off is `now` minus 7 days of 24 hours, shifted by the change of the local
offset over the seven days: it is exactly `now` minus 7 days when the offset is
the same at both ends, and as long as the offset changes by less than a day it
lies strictly between 8 and 6 days before `now`, so that a record timestamped 8
days ago is removed and one timestamped 6 days ago is retained. -/
theorem sweep_removal_criterion (P : Platform) (now cutoff : Int) (store : Storage)
    (k raw : String)
    (hcutoff : sevenDaysAgo P now = some cutoff)
    (hstored : getItem store k = some raw) (hns : inRecordNamespace k = true) :
    (getItem (cleanupOldData P now store) k = none ↔
      (P.jsonParse raw = none
        ∨ ∃ data ts, P.jsonParse raw = some data ∧ data.getProp "timestamp" = some ts
            ∧ ts.truthy = true
            ∧ (newDate P ts = none ∨ ∃ t, newDate P ts = some (some t) ∧ t < cutoff)))
    ∧ (getItem (cleanupOldData P now store) k = none
      ∨ getItem (cleanupOldData P now store) k = some raw)
    ∧ (∀ data ts t, P.jsonParse raw = some data → data.getProp "timestamp" = some ts →
        newDate P ts = some (some t) → cutoff ≤ t →
        getItem (cleanupOldData P now store) k = some raw)
    ∧ cutoff = now - 7 * msPerDay
        + (P.tz - P.tzAtLocal (LocalTime P.tz now - 7 * msPerDay))
    ∧ (P.tzAtLocal (LocalTime P.tz now - 7 * msPerDay) = P.tz → cutoff = now - 7 * msPerDay)
    ∧ (-msPerDay < P.tz - P.tzAtLocal (LocalTime P.tz now - 7 * msPerDay) →
        P.tz - P.tzAtLocal (LocalTime P.tz now - 7 * msPerDay) < msPerDay →
        now - 8 * msPerDay < cutoff ∧ cutoff < now - 6 * msPerDay) := by
  have hcut : cutoff = now - 7 * msPerDay
      + (P.tz - P.tzAtLocal (LocalTime P.tz now - 7 * msPerDay)) := by
    have hc := hcutoff
    rw [sevenDaysAgo_eq] at hc
    unfold TimeClip at hc
    split at hc
    · injection hc with h
      rw [← h]
      unfold UTC LocalTime
      omega
    · cases hc
  have hget := getItem_cleanupOldData P now store k
  rw [hcutoff] at hget
  have hiff := cleanupMarks_iff P cutoff store k raw hstored hns
  have hremoved : getItem (cleanupOldData P now store) k = none ↔
      cleanupMarks P (some cutoff) store k = true := by
    rw [hget]
    cases cleanupMarks P (some cutoff) store k <;> simp [hstored]
  refine ⟨hremoved.trans hiff, ?_, ?_, hcut, ?_, ?_⟩
  · rw [hget]
    cases cleanupMarks P (some cutoff) store k <;> simp [hstored]
  · intro data ts t hp hts hd hle
    have hnot : ¬ cleanupMarks P (some cutoff) store k = true := by
      rw [hiff]
      rintro (h | ⟨data', ts', hp', hts', -, h | ⟨t', hd', hlt⟩⟩)
      · rw [hp] at h
        cases h
      · rw [hp] at hp'
        injection hp' with e
        subst e
        rw [hts] at hts'
        injection hts' with e
        subst e
        rw [hd] at h
        cases h
      · rw [hp] at hp'
        injection hp' with e
        subst e
        rw [hts] at hts'
        injection hts' with e
        subst e
        rw [hd] at hd'
        injection hd' with e
        injection e with e
        omega
    rw [hget]
    simp only [Bool.not_eq_true] at hnot
    rw [hnot]
    simpa using hstored
  · intro h
    rw [hcut, h]
    omega
  · intro h1 h2
    rw [hcut]
    constructor <;> omega

/-- Witness of the amended C6: on the New York platform at 2024-03-14T12:00Z,
four days after the clocks went forward, the cut-off is 2024-03-07T13:00Z.  A
record timestamped 8 days ago is removed and one timestamped 6 days ago is
retained; a record timestamped 2024-03-07T12:30Z, 6 days 23.5 hours ago, is
removed. -/
theorem sweep_removal_criterion_witness :
    getItem (cleanupOldData newYorkPlatform marchNow
        [("health-tracker-2024-03-06", "\x7b\"timestamp\":\"2024-03-06T12:00:00.000Z\"\x7d"),
         ("health-tracker-2024-03-07", "\x7b\"timestamp\":\"2024-03-07T12:30:00.000Z\"\x7d"),
         ("health-tracker-2024-03-08", "\x7b\"timestamp\":\"2024-03-08T12:00:00.000Z\"\x7d")])
      "health-tracker-2024-03-06" = none
    ∧ getItem (cleanupOldData newYorkPlatform marchNow
        [("health-tracker-2024-03-06", "\x7b\"timestamp\":\"2024-03-06T12:00:00.000Z\"\x7d"),
         ("health-tracker-2024-03-07", "\x7b\"timestamp\":\"2024-03-07T12:30:00.000Z\"\x7d"),
         ("health-tracker-2024-03-08", "\x7b\"timestamp\":\"2024-03-08T12:00:00.000Z\"\x7d")])
      "health-tracker-2024-03-07" = none
    ∧ getItem (cleanupOldData newYorkPlatform marchNow
        [("health-tracker-2024-03-06", "\x7b\"timestamp\":\"2024-03-06T12:00:00.000Z\"\x7d"),
         ("health-tracker-2024-03-07", "\x7b\"timestamp\":\"2024-03-07T12:30:00.000Z\"\x7d"),
         ("health-tracker-2024-03-08", "\x7b\"timestamp\":\"2024-03-08T12:00:00.000Z\"\x7d")])
      "health-tracker-2024-03-08" = some "\x7b\"timestamp\":\"2024-03-08T12:00:00.000Z\"\x7d"
    ∧ marchNow - 1709814600000 < 7 * msPerDay := by
  refine ⟨?_, ?_, ?_, by decide⟩
  · exact (sweep_removal_criterion newYorkPlatform marchNow 1709816400000 _
      "health-tracker-2024-03-06" "\x7b\"timestamp\":\"2024-03-06T12:00:00.000Z\"\x7d"
      (by decide) (by decide) (by decide)).1.mpr
      (Or.inr ⟨.obj [("timestamp", .str "2024-03-06T12:00:00.000Z")],
        .str "2024-03-06T12:00:00.000Z", by rfl, by rfl, by decide,
        Or.inr ⟨marchNow - 8 * msPerDay, by decide, by decide⟩⟩)
  · exact (sweep_removal_criterion newYorkPlatform marchNow 1709816400000 _
      "health-tracker-2024-03-07" "\x7b\"timestamp\":\"2024-03-07T12:30:00.000Z\"\x7d"
      (by decide) (by decide) (by decide)).1.mpr
      (Or.inr ⟨.obj [("timestamp", .str "2024-03-07T12:30:00.000Z")],
        .str "2024-03-07T12:30:00.000Z", by rfl, by rfl, by decide,
        Or.inr ⟨1709814600000, by decide, by decide⟩⟩)
  · exact (sweep_removal_criterion newYorkPlatform marchNow 1709816400000
      [("health-tracker-2024-03-06", "\x7b\"timestamp\":\"2024-03-06T12:00:00.000Z\"\x7d"),
       ("health-tracker-2024-03-07", "\x7b\"timestamp\":\"2024-03-07T12:30:00.000Z\"\x7d"),
       ("health-tracker-2024-03-08", "\x7b\"timestamp\":\"2024-03-08T12:00:00.000Z\"\x7d")]
      "health-tracker-2024-03-08" "\x7b\"timestamp\":\"2024-03-08T12:00:00.000Z\"\x7d"
      (by decide) (by decide) (by decide)).2.2.1
      (.obj [("timestamp", .str "2024-03-08T12:00:00.000Z")])
      (.str "2024-03-08T12:00:00.000Z") (marchNow - 6 * msPerDay)
      (by rfl) (by rfl) (by decide) (by decide)

/-- C7 (sweep idempotence).  Running `cleanupOldData` twice in succession at the
same instant yields the same store as running it once. -/
theorem sweep_idempotent (P : Platform) (now : Int) (store : Storage) :
    cleanupOldData P now (cleanupOldData P now store) = cleanupOldData P now store := by
  rw [cleanupOldData_eq_filter P now (cleanupOldData P now store), List.filter_eq_self]
  intro e he
  have he' := he
  rw [cleanupOldData_eq_filter, List.mem_filter] at he'
  have hm : cleanupMarks P (sevenDaysAgo P now) store e.1 = false := by
    simpa using he'.2
  have hg : getItem (cleanupOldData P now store) e.1 = getItem store e.1 := by
    rw [getItem_cleanupOldData, hm]
    simp
  rw [cleanupMarks_congr P _ _ _ e.1 hg, hm]
  rfl

/-- Counterexample to C8: on the reference platform the sweep removes the key
`health-tracker-draft`, which does not match the pattern
`health-tracker-YYYY-MM-DD`, because its value does not parse. -/
theorem sweep_removes_other_key :
    isDayKey "health-tracker-draft" = false
    ∧ getItem [("health-tracker-goals", "\x7boops"), ("health-tracker-draft", "\x7boops"),
        ("notes", "\x7boops")] "health-tracker-draft" = some "\x7boops"
    ∧ cleanupOldData refPlatform sampleNow
        [("health-tracker-goals", "\x7boops"), ("health-tracker-draft", "\x7boops"), ("notes", "\x7boops")]
      = [("health-tracker-goals", "\x7boops"), ("notes", "\x7boops")] :=
  ⟨by decide, by decide, by rfl⟩

/-- C8, amended.  `cleanupOldData` only removes entries: what it leaves is a
sublist of the store, so no value changes and nothing is added; and it only ever
removes keys that start with `health-tracker-` and differ from the goals key.
The goals key `health-tracker-goals` and every key without that prefix keep their
entries and values, whatever those values are. -/
theorem sweep_frame (P : Platform) (now : Int) (store : Storage) :
    (cleanupOldData P now store).Sublist store
    ∧ getItem (cleanupOldData P now store) "health-tracker-goals"
        = getItem store "health-tracker-goals"
    ∧ (∀ k, startsWith k "health-tracker-" = false →
        getItem (cleanupOldData P now store) k = getItem store k)
    ∧ (∀ e ∈ store, (startsWith e.1 "health-tracker-" = false ∨ e.1 = "health-tracker-goals") →
        e ∈ cleanupOldData P now store) := by
  have hgoals : ∀ c, cleanupMarks P c store "health-tracker-goals" = false := by
    intro c
    simp [cleanupMarks, inRecordNamespace]
  have hother : ∀ c k, startsWith k "health-tracker-" = false → cleanupMarks P c store k = false := by
    intro c k hk
    simp [cleanupMarks, inRecordNamespace, hk]
  refine ⟨?_, ?_, ?_, ?_⟩
  · rw [cleanupOldData_eq_filter]
    exact List.filter_sublist _
  · rw [getItem_cleanupOldData, hgoals]
    simp
  · intro k hk
    rw [getItem_cleanupOldData, hother _ k hk]
    simp
  · intro e he hk
    rw [cleanupOldData_eq_filter, List.mem_filter]
    refine ⟨he, ?_⟩
    rcases hk with hk | hk
    · rw [hother _ _ hk]; rfl
    · rw [hk, hgoals]; rfl

/-- Witness of the amended C8: a store whose goals key and whose foreign key hold
corrupt values keeps both through the sweep. -/
theorem sweep_frame_witness :
    getItem (cleanupOldData refPlatform sampleNow
        [("health-tracker-goals", "\x7boops"), ("health-tracker-draft", "\x7boops"), ("notes", "\x7boops")])
      "notes" = some "\x7boops"
    ∧ ("health-tracker-goals", "\x7boops") ∈ cleanupOldData refPlatform sampleNow
        [("health-tracker-goals", "\x7boops"), ("health-tracker-draft", "\x7boops"), ("notes", "\x7boops")] :=
  ⟨((sweep_frame refPlatform sampleNow
      [("health-tracker-goals", "\x7boops"), ("health-tracker-draft", "\x7boops"),
        ("notes", "\x7boops")]).2.2.1 "notes" (by decide)).trans (by decide),
    (sweep_frame refPlatform sampleNow
      [("health-tracker-goals", "\x7boops"), ("health-tracker-draft", "\x7boops"),
        ("notes", "\x7boops")]).2.2.2 ("health-tracker-goals", "\x7boops") (by simp) (Or.inr rfl)⟩

theorem or_default_cases (v d : JSVal) :
    (v.truthy = true ∧ v.or d = v) ∨ (v.truthy = false ∧ v.or d = d) := by
  unfold JSVal.or
  cases h : v.truthy <;> simp

/-- C9 (goals defaults).  `loadInitialGoals` returns `{waterGoal: 8, calorieGoal:
2000}` when the goals key is absent and when it holds a value that `JSON.parse`
rejects; when it holds an object, each field that is unset (reading it gives
`undefined` or another falsy value) falls back to its own default and each field
that is set (truthy) is kept. -/
theorem loadInitialGoals_defaults (P : Platform) (store : Storage) :
    (getItem store "health-tracker-goals" = none →
      loadInitialGoals P store = { waterGoal := .num 8, calorieGoal := .num 2000 })
    ∧ (∀ raw, getItem store "health-tracker-goals" = some raw → P.jsonParse raw = none →
      loadInitialGoals P store = { waterGoal := .num 8, calorieGoal := .num 2000 })
    ∧ (∀ raw ps, getItem store "health-tracker-goals" = some raw → raw ≠ "" →
      P.jsonParse raw = some (.obj ps) →
        ((JSVal.lookup "waterGoal" ps).truthy = false →
          (loadInitialGoals P store).waterGoal = .num 8)
        ∧ ((JSVal.lookup "waterGoal" ps).truthy = true →
          (loadInitialGoals P store).waterGoal = JSVal.lookup "waterGoal" ps)
        ∧ ((JSVal.lookup "calorieGoal" ps).truthy = false →
          (loadInitialGoals P store).calorieGoal = .num 2000)
        ∧ ((JSVal.lookup "calorieGoal" ps).truthy = true →
          (loadInitialGoals P store).calorieGoal = JSVal.lookup "calorieGoal" ps)) := by
  refine ⟨?_, ?_, ?_⟩
  · intro h
    simp [loadInitialGoals, h, defaultGoals, DEFAULT_WATER_GOAL, DEFAULT_CALORIE_GOAL]
  · intro raw h hp
    by_cases he : raw = "" <;>
      simp [loadInitialGoals, h, hp, he, defaultGoals, DEFAULT_WATER_GOAL, DEFAULT_CALORIE_GOAL]
  · intro raw ps h he hp
    have hload : loadInitialGoals P store
        = { waterGoal := (JSVal.lookup "waterGoal" ps).or (.num 8),
            calorieGoal := (JSVal.lookup "calorieGoal" ps).or (.num 2000) } := by
      simp [loadInitialGoals, h, hp, he, JSVal.getProp, DEFAULT_WATER_GOAL, DEFAULT_CALORIE_GOAL]
    rw [hload]
    simp only
    rcases or_default_cases (JSVal.lookup "waterGoal" ps) (.num 8) with ⟨hw, hw'⟩ | ⟨hw, hw'⟩ <;>
      rcases or_default_cases (JSVal.lookup "calorieGoal" ps) (.num 2000)
        with ⟨hc, hc'⟩ | ⟨hc, hc'⟩ <;>
      rw [hw', hc'] <;> simp [hw, hc]

/-- Witness of C9: on the reference platform the stored goals `{"waterGoal":10}`
are read as `{waterGoal: 10, calorieGoal: 2000}`. -/
theorem loadInitialGoals_defaults_witness :
    (loadInitialGoals refPlatform [("health-tracker-goals", "\x7b\"waterGoal\":10\x7d")]).waterGoal
      = .num 10
    ∧ (loadInitialGoals refPlatform [("health-tracker-goals", "\x7b\"waterGoal\":10\x7d")]).calorieGoal
      = .num 2000 :=
  have h := (loadInitialGoals_defaults refPlatform
    [("health-tracker-goals", "\x7b\"waterGoal\":10\x7d")]).2.2 "\x7b\"waterGoal\":10\x7d"
    [("waterGoal", .num 10)] (by decide) (by decide) (by rfl)
  ⟨h.2.1 (by decide), h.2.2.1 (by rfl)⟩

/-- C10 (key stability).  For all instants `d1` and `d2` the keys derived by
`getTodayKey` are equal exactly when `d1` and `d2` have the same local year,
month and day of month, which is exactly when they lie in the same local day; so
one second before a local midnight and one second after it give different
keys. -/
theorem getTodayKey_same_day (tz d1 d2 n : Int) :
    (getTodayKey tz d1 = getTodayKey tz d2 ↔
      getFullYear tz d1 = getFullYear tz d2 ∧ getMonth tz d1 = getMonth tz d2
        ∧ getDate tz d1 = getDate tz d2)
    ∧ (getTodayKey tz d1 = getTodayKey tz d2 ↔ Day (LocalTime tz d1) = Day (LocalTime tz d2))
    ∧ getTodayKey tz (UTC tz (n * msPerDay - 1000)) ≠ getTodayKey tz (UTC tz (n * msPerDay + 1000)) := by
  have hfwd : ∀ a b, (getFullYear tz a = getFullYear tz b ∧ getMonth tz a = getMonth tz b
      ∧ getDate tz a = getDate tz b) → getTodayKey tz a = getTodayKey tz b := by
    rintro a b ⟨hy, hm, hd⟩
    unfold getTodayKey
    rw [hy, hm, hd]
  have hday : ∀ a b, getTodayKey tz a = getTodayKey tz b ↔
      Day (LocalTime tz a) = Day (LocalTime tz b) := by
    intro a b
    constructor
    · intro h
      obtain ⟨hy, hm, hd⟩ := getTodayKey_inj tz a b h
      exact Day_eq_of_civil_eq _ _ hy hm hd
    · intro h
      exact hfwd a b (civil_eq_of_Day_eq _ _ h)
  refine ⟨⟨getTodayKey_inj tz d1 d2, hfwd d1 d2⟩, hday d1 d2, ?_⟩
  rw [Ne, hday]
  unfold Day LocalTime UTC msPerDay
  omega

/-- C11 (goal validity) evaluated on the code at the failing input: starting from
the default goals, the user opens the editor, types 0 into the water field (or
empties it, so that `Number(e.target.value)` is 0) and saves.  The in-memory
`waterGoal` becomes 0, which is not a positive integer, the effect persists
`{"waterGoal":0,"calorieGoal":2000}`, and `loadInitialGoals` reads that stored
goal back as 8. -/
theorem zero_goal_saved :
    (DailyGoal.handleSave
        (DailyGoal.changeWaterGoal (.num 0)
          (DailyGoal.edit (DailyGoal.mount (loadInitialGoals refPlatform []))))
        (loadInitialGoals refPlatform [])).2.waterGoal = .num 0
    ∧ isPositiveInteger (DailyGoal.handleSave
        (DailyGoal.changeWaterGoal (.num 0)
          (DailyGoal.edit (DailyGoal.mount (loadInitialGoals refPlatform []))))
        (loadInitialGoals refPlatform [])).2.waterGoal = false
    ∧ saveGoals refPlatform (DailyGoal.handleSave
        (DailyGoal.changeWaterGoal (.num 0)
          (DailyGoal.edit (DailyGoal.mount (loadInitialGoals refPlatform []))))
        (loadInitialGoals refPlatform [])).2 []
      = some [("health-tracker-goals", "\x7b\"waterGoal\":0,\"calorieGoal\":2000\x7d")]
    ∧ loadInitialGoals refPlatform
        [("health-tracker-goals", "\x7b\"waterGoal\":0,\"calorieGoal\":2000\x7d")]
      = { waterGoal := .num 8, calorieGoal := .num 2000 } :=
  ⟨by rfl, by decide, by rfl, by rfl⟩

theorem truthy_of_isPositiveInteger (v : JSVal) (h : isPositiveInteger v = true) :
    v.truthy = true := by
  cases v <;> simp_all [isPositiveInteger, JSVal.truthy]
  exact ne_of_gt h.1

/-- What a save in the goal editor does with the values the editor holds:
`handleSave` hands `tempWaterGoal` and `tempCalorieGoal` to
`handleWaterGoalChange` and `handleCalorieGoalChange`, and the goals-saving effect
writes the JSON text of these two values under the goals key.  When both are
positive integers, the state holds positive integers and (where `JSON.parse`
reads back what `JSON.stringify` wrote) `loadInitialGoals` reads them back from
the store. -/
theorem goal_edit_passes_values (P : Platform) (d : DailyGoal) (goals : Goals)
    (store : Storage) :
    (d.handleSave goals).2 = { waterGoal := d.tempWaterGoal, calorieGoal := d.tempCalorieGoal }
    ∧ (∀ store', saveGoals P (d.handleSave goals).2 store = some store' →
        getItem store' "health-tracker-goals"
          = some (P.jsonStringify
              (.obj [("waterGoal", d.tempWaterGoal), ("calorieGoal", d.tempCalorieGoal)])))
    ∧ (isPositiveInteger d.tempWaterGoal = true → isPositiveInteger d.tempCalorieGoal = true →
        isPositiveInteger (d.handleSave goals).2.waterGoal = true
        ∧ isPositiveInteger (d.handleSave goals).2.calorieGoal = true
        ∧ ∀ store', saveGoals P (d.handleSave goals).2 store = some store' →
            P.jsonStringify (goalsData (d.handleSave goals).2) ≠ "" →
            P.jsonParse (P.jsonStringify (goalsData (d.handleSave goals).2))
              = some (goalsData (d.handleSave goals).2) →
            loadInitialGoals P store' = (d.handleSave goals).2) := by
  have hsave : (d.handleSave goals).2
      = { waterGoal := d.tempWaterGoal, calorieGoal := d.tempCalorieGoal } := rfl
  have hstored : ∀ store', saveGoals P (d.handleSave goals).2 store = some store' →
      getItem store' "health-tracker-goals"
        = some (P.jsonStringify (goalsData (d.handleSave goals).2)) := by
    intro store' h
    unfold saveGoals at h
    split at h
    · injection h with h
      rw [← h, getItem_setItem_self]
    · cases h
  refine ⟨hsave, hstored, ?_⟩
  intro hw hc
  refine ⟨hw, hc, ?_⟩
  intro store' h htext hjson
  have hget := hstored store' h
  have htw := truthy_of_isPositiveInteger _ hw
  have htc := truthy_of_isPositiveInteger _ hc
  rw [hsave] at hget htext hjson ⊢
  simp only [goalsData] at hget htext hjson
  simp [loadInitialGoals, hget, htext, hjson, JSVal.getProp, JSVal.lookup, JSVal.or, htw, htc]

/-- Example: on the reference platform the goals 10 and 2500, typed into the
editor and saved, are held by the state, persisted and read back from the
store. -/
theorem goal_edit_passes_values_witness :
    saveGoals refPlatform
        (DailyGoal.handleSave
          { isEditing := true, tempWaterGoal := .num 10, tempCalorieGoal := .num 2500 }
          defaultGoals).2 []
      = some [("health-tracker-goals", "\x7b\"waterGoal\":10,\"calorieGoal\":2500\x7d")]
    ∧ loadInitialGoals refPlatform
        [("health-tracker-goals", "\x7b\"waterGoal\":10,\"calorieGoal\":2500\x7d")]
      = { waterGoal := .num 10, calorieGoal := .num 2500 } :=
  ⟨by rfl,
    ((goal_edit_passes_values refPlatform
      { isEditing := true, tempWaterGoal := .num 10, tempCalorieGoal := .num 2500 }
      defaultGoals []).2.2 (by decide) (by decide)).2.2
      [("health-tracker-goals", "\x7b\"waterGoal\":10,\"calorieGoal\":2500\x7d")]
      (by rfl) (by decide) (by rfl)⟩

theorem intakeData_timestamp (w c : JSVal) (iso : String) :
    (intakeData w c iso).getProp "timestamp" = some (.str iso) := by
  simp [intakeData, JSVal.getProp, JSVal.lookup]

/-- A record written by the saving effect, looked at on the same local day: it is
found under the day's key, it parses, and the expiry check answers false for its
timestamp. -/
theorem own_record_fresh (P : Platform) (store : Storage) (t later : Int) (w c : ℕ)
    (hquota : P.quotaAllows store (getTodayKey P.tz t)
      (P.jsonStringify (intakeData (.num w) (.num c) (toISOString t))) = true)
    (hdate : P.dateParse (toISOString t) = some t)
    (hclock : TimeClip t = some t)
    (hday : getTodayKey P.tz later = getTodayKey P.tz t) :
    getItem (saveIntake P t (.num w) (.num c) store) (getTodayKey P.tz later)
      = some (P.jsonStringify (intakeData (.num w) (.num c) (toISOString t)))
    ∧ isDataExpired P later (.str (toISOString t)) = some false := by
  have hsave : saveIntake P t (.num w) (.num c) store
      = setItem store (getTodayKey P.tz t)
          (P.jsonStringify (intakeData (.num w) (.num c) (toISOString t))) := by
    simp [saveIntake, hquota]
  refine ⟨by rw [hsave, hday, getItem_setItem_self], ?_⟩
  have htruthy : (JSVal.str (toISOString t)).truthy = true := by
    simp [JSVal.truthy, toISOString_ne_empty]
  have hnew : newDate P (.str (toISOString t)) = some (some t) := by
    simp [newDate, hdate, hclock]
  obtain ⟨hy, hm, hd⟩ := getTodayKey_inj P.tz later t hday
  have hDay : Day (LocalTime P.tz t) = Day (LocalTime P.tz later) :=
    (Day_eq_of_civil_eq _ _ hy hm hd).symm
  have hlt := lt_msPerDay_of_Day_eq _ _ hDay
  have hdec : decide (86400000 ≤ later - t) = false := by
    rw [decide_eq_false_iff_not]
    unfold LocalTime msPerDay at hlt
    omega
  have h := isDataExpired_valid P later t _ htruthy hnew
  rw [hdec] at h
  exact h

/-- The hourly check leaves the state and the store alone when the expiry check
answers false for the timestamp of today's record. -/
theorem expiryCheck_fresh (P : Platform) (now : Int) (state : Intake) (store : Storage)
    (raw : String) (data ts : JSVal)
    (h : getItem store (getTodayKey P.tz now) = some raw)
    (hp : P.jsonParse raw = some data) (hts : data.getProp "timestamp" = some ts)
    (hx : isDataExpired P now ts = some false) :
    expiryCheck P now state store = (state, store) := by
  by_cases he : raw = "" <;> simp [expiryCheck, h, hp, hts, hx, he]

/-- Saving, then loading and running the hourly check on the same local day: the
record is neither reset nor removed. -/
theorem own_record_core (P : Platform) (store : Storage) (t later : Int) (w c : ℕ)
    (hquota : P.quotaAllows store (getTodayKey P.tz t)
      (P.jsonStringify (intakeData (.num w) (.num c) (toISOString t))) = true)
    (htext : P.jsonStringify (intakeData (.num w) (.num c) (toISOString t)) ≠ "")
    (hjson : P.jsonParse (P.jsonStringify (intakeData (.num w) (.num c) (toISOString t)))
      = some (intakeData (.num w) (.num c) (toISOString t)))
    (hdate : P.dateParse (toISOString t) = some t)
    (hclock : TimeClip t = some t)
    (hday : getTodayKey P.tz later = getTodayKey P.tz t) :
    isDataExpired P later (.str (toISOString t)) = some false
    ∧ loadInitialIntake P later (saveIntake P t (.num w) (.num c) store)
      = ({ waterIntake := .num w, calorieIntake := .num c },
          saveIntake P t (.num w) (.num c) store)
    ∧ ∀ state, expiryCheck P later state (saveIntake P t (.num w) (.num c) store)
      = (state, saveIntake P t (.num w) (.num c) store) := by
  obtain ⟨hget, hfresh⟩ := own_record_fresh P store t later w c hquota hdate hclock hday
  exact ⟨hfresh, save_load_core P store t later w c hquota htext hjson hdate hclock hday,
    fun state => expiryCheck_fresh P later state _ _ _ _ hget hjson
      (intakeData_timestamp _ _ _) hfresh⟩

/-- C12 (a record the program wrote is never expired on its own day).  With a
fixed local offset (every calendar day lasts 24 hours), let the saving effect
write the totals `w`, `c` at the instant `t`, under `getTodayKey` of `t` and with
the timestamp of `t`.  At every instant `later` with the same day key,
`isDataExpired` answers false for that timestamp, `loadInitialIntake` returns
the saved totals and keeps the entry, and the hourly check changes neither the
state nor the store.  This holds on every platform on which the write is
accepted, `JSON.parse` reads back what `JSON.stringify` wrote for the record and
`Date.parse` reads back the ISO timestamp; and on the reference platform, which
obeys these laws, for every store, totals and clock reading. -/
theorem own_record_never_expires (store : Storage) (t later : Int) (w c : ℕ) :
    (∀ P : Platform,
      P.quotaAllows store (getTodayKey P.tz t)
        (P.jsonStringify (intakeData (.num w) (.num c) (toISOString t))) = true →
      P.jsonStringify (intakeData (.num w) (.num c) (toISOString t)) ≠ "" →
      P.jsonParse (P.jsonStringify (intakeData (.num w) (.num c) (toISOString t)))
        = some (intakeData (.num w) (.num c) (toISOString t)) →
      P.dateParse (toISOString t) = some t →
      TimeClip t = some t →
      getTodayKey P.tz later = getTodayKey P.tz t →
      isDataExpired P later (.str (toISOString t)) = some false
      ∧ loadInitialIntake P later (saveIntake P t (.num w) (.num c) store)
        = ({ waterIntake := .num w, calorieIntake := .num c },
            saveIntake P t (.num w) (.num c) store)
      ∧ ∀ state, expiryCheck P later state (saveIntake P t (.num w) (.num c) store)
        = (state, saveIntake P t (.num w) (.num c) store))
    ∧ (TimeClip t = some t →
      getTodayKey refPlatform.tz later = getTodayKey refPlatform.tz t →
      isDataExpired refPlatform later (.str (toISOString t)) = some false
      ∧ loadInitialIntake refPlatform later (saveIntake refPlatform t (.num w) (.num c) store)
        = ({ waterIntake := .num w, calorieIntake := .num c },
            saveIntake refPlatform t (.num w) (.num c) store)
      ∧ ∀ state, expiryCheck refPlatform later state
          (saveIntake refPlatform t (.num w) (.num c) store)
        = (state, saveIntake refPlatform t (.num w) (.num c) store)) := by
  refine ⟨fun P hquota htext hjson hdate hclock hday =>
    own_record_core P store t later w c hquota htext hjson hdate hclock hday, ?_⟩
  intro hclock hday
  have hquota : refPlatform.quotaAllows store (getTodayKey refPlatform.tz t)
      (refPlatform.jsonStringify (intakeData (.num w) (.num c) (toISOString t))) = true := by
    simp only [refPlatform]
  have htext : refPlatform.jsonStringify (intakeData (.num w) (.num c) (toISOString t)) ≠ "" := by
    simp only [refPlatform]
    exact refJsonStringify_ne_empty w c t
  have hjson : refPlatform.jsonParse
      (refPlatform.jsonStringify (intakeData (.num w) (.num c) (toISOString t)))
      = some (intakeData (.num w) (.num c) (toISOString t)) := by
    simp only [refPlatform]
    exact refJson_intakeData w c _ (toISOString_plain t)
  have hdate : refPlatform.dateParse (toISOString t) = some t := by
    simp only [refPlatform]
    exact refDateParse_toISOString t hclock
  exact own_record_core refPlatform store t later w c hquota htext hjson hdate hclock hday

/-- Witness of C12: on the reference platform a record saved at `sampleNow`
(12:34 UTC) and looked at eleven hours later, on the same day. -/
theorem own_record_never_expires_witness :
    getTodayKey refPlatform.tz (sampleNow + 11 * 3600000) = getTodayKey refPlatform.tz sampleNow
    ∧ isDataExpired refPlatform (sampleNow + 11 * 3600000) (.str (toISOString sampleNow))
      = some false
    ∧ expiryCheck refPlatform (sampleNow + 11 * 3600000)
        { waterIntake := .num (3 : ℕ), calorieIntake := .num (450 : ℕ) }
        (saveIntake refPlatform sampleNow (.num (3 : ℕ)) (.num (450 : ℕ)) [])
      = ({ waterIntake := .num (3 : ℕ), calorieIntake := .num (450 : ℕ) },
          saveIntake refPlatform sampleNow (.num (3 : ℕ)) (.num (450 : ℕ)) []) :=
  have h := (own_record_never_expires [] sampleNow (sampleNow + 11 * 3600000) 3 450).2
    (by decide) (by decide)
  ⟨by decide, h.1, h.2.2 _⟩

end HealthTracker
